import Mathlib

/-!
# Verification of the expression-semantics core (`expr.cpp`)

A shallow embedding of the type grammar, implicit-conversion engine,
overload resolver, constant folder and assignment checker of the SPMD
compiler front end, together with proofs about the properties claimed in
the specification.

The `Type` class hierarchy itself (`type.cpp`) is not part of the source
sample; its operations (`Equal`, variability/const morphisms, shape
queries) are modelled from the specification, section 4.1.  Everything in
namespace `Ispc` below that embeds a function of `expr.cpp` carries the
line numbers of the function it was translated from.
-/

set_option maxHeartbeats 1000000

namespace Ispc

/-- Modelled from the spec: Variability ∈ {uniform, varying} (spec §3). -/
inductive Variability where
  | uniform
  | varying
deriving DecidableEq, Repr

/-- Modelled from the spec: the atomic basic types (spec §3).  `void` is kept
as a separate constructor of `Ty` (the source has a single canonical
`AtomicType::Void` object that is compared by pointer identity and is not a
value type). -/
inductive BasicType where
  | bool
  | int8
  | uint8
  | int16
  | uint16
  | int32
  | uint32
  | int64
  | uint64
  | float
  | double
deriving DecidableEq, Repr

mutual

/-- Modelled from the spec: the closed type variant (spec §3).  Enum and
struct identity is by name; struct members carry a name and a type, and a
member's const-ness is the const-ness of its type (spec §3: "Struct: named
element list, each with a type and per-member const flag"). -/
inductive Ty where
  | atomic (basic : BasicType) (v : Variability) (isConst : Bool)
  | voidType
  | enumT (name : String) (v : Variability) (isConst : Bool)
  | pointer (base : Ty) (v : Variability) (isConst : Bool)
  | reference (target : Ty)
  | array (elt : Ty) (count : Nat)
  | vector (elt : Ty) (count : Nat)
  | structT (name : String) (elts : Members) (v : Variability) (isConst : Bool)

/-- Struct member lists (name/type pairs). -/
inductive Members where
  | nil
  | cons (mname : String) (mty : Ty) (rest : Members)

end

mutual

/-- Modelled from the spec: `Equal(a, b)` — structural equality including
const and variability (spec §4.1). -/
def Ty.Equal : Ty → Ty → Bool
  | .atomic b1 v1 c1, .atomic b2 v2 c2 => b1 == b2 && v1 == v2 && c1 == c2
  | .voidType, .voidType => true
  | .enumT n1 v1 c1, .enumT n2 v2 c2 => n1 == n2 && v1 == v2 && c1 == c2
  | .pointer b1 v1 c1, .pointer b2 v2 c2 => Ty.Equal b1 b2 && v1 == v2 && c1 == c2
  | .reference t1, .reference t2 => Ty.Equal t1 t2
  | .array e1 n1, .array e2 n2 => Ty.Equal e1 e2 && n1 == n2
  | .vector e1 n1, .vector e2 n2 => Ty.Equal e1 e2 && n1 == n2
  | .structT n1 m1 v1 c1, .structT n2 m2 v2 c2 =>
      n1 == n2 && Members.Equal m1 m2 && v1 == v2 && c1 == c2
  | _, _ => false

/-- Structural equality of member lists. -/
def Members.Equal : Members → Members → Bool
  | .nil, .nil => true
  | .cons n1 t1 r1, .cons n2 t2 r2 => n1 == n2 && Ty.Equal t1 t2 && Members.Equal r1 r2
  | _, _ => false

end

mutual

/-- Modelled from the spec: deep const-stripping, the normalization behind
`EqualIgnoringConst` (spec §4.1). -/
def Ty.stripConst : Ty → Ty
  | .atomic b v _ => .atomic b v false
  | .voidType => .voidType
  | .enumT n v _ => .enumT n v false
  | .pointer b v _ => .pointer (Ty.stripConst b) v false
  | .reference t => .reference (Ty.stripConst t)
  | .array e n => .array (Ty.stripConst e) n
  | .vector e n => .vector (Ty.stripConst e) n
  | .structT n m v _ => .structT n (Members.stripConst m) v false

/-- Const-stripping on member lists. -/
def Members.stripConst : Members → Members
  | .nil => .nil
  | .cons n t r => .cons n (Ty.stripConst t) (Members.stripConst r)

end

/-- Modelled from the spec: `EqualIgnoringConst(a, b)` (spec §4.1). -/
def Ty.EqualIgnoringConst (a b : Ty) : Bool :=
  Ty.Equal a.stripConst b.stripConst

/-- Modelled from the spec: a uniform type has one shared value; references
are always uniform (spec §3 invariant 1); variability of arrays and vectors
is that of their elements; `void` is not a value type and is neither uniform
nor varying. -/
def Ty.IsUniformType : Ty → Bool
  | .atomic _ v _ => v == .uniform
  | .voidType => false
  | .enumT _ v _ => v == .uniform
  | .pointer _ v _ => v == .uniform
  | .reference _ => true
  | .array e _ => e.IsUniformType
  | .vector e _ => e.IsUniformType
  | .structT _ _ v _ => v == .uniform

/-- Modelled from the spec: dual of `IsUniformType` (spec §3). -/
def Ty.IsVaryingType : Ty → Bool
  | .atomic _ v _ => v == .varying
  | .voidType => false
  | .enumT _ v _ => v == .varying
  | .pointer _ v _ => v == .varying
  | .reference _ => false
  | .array e _ => e.IsVaryingType
  | .vector e _ => e.IsVaryingType
  | .structT _ _ v _ => v == .varying

/-- Modelled from the spec: const-ness query; arrays and vectors delegate to
their element type, references to their target (spec §3). -/
def Ty.IsConstType : Ty → Bool
  | .atomic _ _ c => c
  | .voidType => false
  | .enumT _ _ c => c
  | .pointer _ _ c => c
  | .reference t => t.IsConstType
  | .array e _ => e.IsConstType
  | .vector e _ => e.IsConstType
  | .structT _ _ _ c => c

/-- Modelled from the spec: `as_const` morphism; recurses into array and
vector elements, sets the top-level flag of atomic/enum/pointer/struct
types, and maps a reference to a reference to the const target (spec §4.1:
"All are total; they recurse into composite shapes"). -/
def Ty.GetAsConstType : Ty → Ty
  | .atomic b v _ => .atomic b v true
  | .voidType => .voidType
  | .enumT n v _ => .enumT n v true
  | .pointer b v _ => .pointer b v true
  | .reference t => .reference t.GetAsConstType
  | .array e n => .array e.GetAsConstType n
  | .vector e n => .vector e.GetAsConstType n
  | .structT n m v _ => .structT n m v true

/-- Modelled from the spec: `as_mutable` morphism, dual of `as_const`. -/
def Ty.GetAsNonConstType : Ty → Ty
  | .atomic b v _ => .atomic b v false
  | .voidType => .voidType
  | .enumT n v _ => .enumT n v false
  | .pointer b v _ => .pointer b v false
  | .reference t => .reference t.GetAsNonConstType
  | .array e n => .array e.GetAsNonConstType n
  | .vector e n => .vector e.GetAsNonConstType n
  | .structT n m v _ => .structT n m v false

mutual

/-- Modelled from the spec: `as_uniform` morphism; recurses into composite
shapes (a uniform struct has uniform members); pointer variability is that
of the pointer itself, not the pointee (spec §4.1). -/
def Ty.GetAsUniformType : Ty → Ty
  | .atomic b _ c => .atomic b .uniform c
  | .voidType => .voidType
  | .enumT n _ c => .enumT n .uniform c
  | .pointer b _ c => .pointer b .uniform c
  | .reference t => .reference t
  | .array e n => .array e.GetAsUniformType n
  | .vector e n => .vector e.GetAsUniformType n
  | .structT n m _ c => .structT n (Members.getAsUniform m) .uniform c

/-- `as_uniform` on struct members. -/
def Members.getAsUniform : Members → Members
  | .nil => .nil
  | .cons n t r => .cons n t.GetAsUniformType (Members.getAsUniform r)

end

mutual

/-- Modelled from the spec: `as_varying` morphism; recurses into composite
shapes (a varying struct has varying members); pointer variability is that
of the pointer itself, not the pointee; references stay uniform (spec §4.1,
§3 invariant 1). -/
def Ty.GetAsVaryingType : Ty → Ty
  | .atomic b _ c => .atomic b .varying c
  | .voidType => .voidType
  | .enumT n _ c => .enumT n .varying c
  | .pointer b _ c => .pointer b .varying c
  | .reference t => .reference t
  | .array e n => .array e.GetAsVaryingType n
  | .vector e n => .vector e.GetAsVaryingType n
  | .structT n m _ c => .structT n (Members.getAsVarying m) .varying c

/-- `as_varying` on struct members. -/
def Members.getAsVarying : Members → Members
  | .nil => .nil
  | .cons n t r => .cons n t.GetAsVaryingType (Members.getAsVarying r)

end

/-- Modelled from the spec: `reference_target` — the target of a reference,
the type itself otherwise (spec §4.1). -/
def Ty.GetReferenceTarget : Ty → Ty
  | .reference t => t
  | t => t

/-- Modelled from the spec: `base_type` of a pointer (spec §3: "Pointer:
base type + uniform/varying + const"); other types return themselves. -/
def Ty.GetBaseType : Ty → Ty
  | .pointer b _ _ => b
  | t => t

/-- Modelled from the spec: `is_integer` (spec §4.1); enums are integers
(named sets of unsigned 32-bit constants, spec §3). -/
def Ty.IsIntType : Ty → Bool
  | .atomic b _ _ =>
      b == .int8 || b == .uint8 || b == .int16 || b == .uint16 ||
      b == .int32 || b == .uint32 || b == .int64 || b == .uint64
  | .enumT _ _ _ => true
  | _ => false

/-- Modelled from the spec: `is_bool` (spec §4.1). -/
def Ty.IsBoolType : Ty → Bool
  | .atomic b _ _ => b == .bool
  | _ => false

/-- `PointerType::IsVoidPointer`: a pointer whose base type is `void`. -/
def Ty.IsVoidPointer : Ty → Bool
  | .pointer .voidType _ _ => true
  | _ => false

/-- True for the constructors the source's
`dynamic_cast<const ReferenceType *>` recognizes. -/
def Ty.isReferenceType : Ty → Bool
  | .reference _ => true
  | _ => false

/-- True for the constructors the source's
`dynamic_cast<const PointerType *>` recognizes. -/
def Ty.isPointerType : Ty → Bool
  | .pointer _ _ _ => true
  | _ => false

/-- True for the constructors the source's
`dynamic_cast<const ArrayType *>` recognizes. -/
def Ty.isArrayType : Ty → Bool
  | .array _ _ => true
  | _ => false

/-- True for the constructors the source's
`dynamic_cast<const VectorType *>` recognizes. -/
def Ty.isVectorType : Ty → Bool
  | .vector _ _ => true
  | _ => false

/-- True for the constructors the source's
`dynamic_cast<const StructType *>` recognizes. -/
def Ty.isStructType : Ty → Bool
  | .structT _ _ _ _ => true
  | _ => false

/-- True for the constructors the source's
`dynamic_cast<const EnumType *>` recognizes. -/
def Ty.isEnumType : Ty → Bool
  | .enumT _ _ _ => true
  | _ => false

/-- The canonical `void` check (`fromType == AtomicType::Void` in the
source, a pointer-identity comparison with the unique void object). -/
def Ty.isVoid : Ty → Bool
  | .voidType => true
  | _ => false

/-- Non-void atomic type, as recognized by the source's
`dynamic_cast<const AtomicType *>` (in C++ `void` also is an `AtomicType`,
but every use below is guarded so that `void` was already ruled out). -/
def Ty.isAtomicType : Ty → Bool
  | .atomic _ _ _ => true
  | _ => false

/-! ## The implicit conversion engine (`lDoTypeConv`, expr.cpp 153-494) -/

/-- Minimal expression model for conversion insertion: enough structure to
record the rewrites `lDoTypeConv` performs on `*expr` and to answer its two
queries on the expression (`dynamic_cast<NullPointerExpr *>` and
`lIsAllIntZeros`). -/
inductive CExpr where
  | base (isAllIntZeros : Bool)
  | nullPtrE
  | typeCast (castTo : Ty) (e : CExpr)
  | derefE (e : CExpr)
  | refE (e : CExpr)

/-- `lIsAllIntZeros` (expr.cpp 153-173): the expression is a `ConstExpr`
whose lanes are all zero.  (The function also re-checks that the type is an
integer type; at its only call site, expr.cpp 296-298, that is already
guarded separately, so the model keeps the flag on the leaf.) -/
def CExpr.isAllIntZerosE : CExpr → Bool
  | .base z => z
  | _ => false

/-- The source's `dynamic_cast<NullPointerExpr *>(*expr) != NULL`. -/
def CExpr.isNullPointerExpr : CExpr → Bool
  | .nullPtrE => true
  | _ => false

/-- The distinct diagnostics `lDoTypeConv` can emit, in source order.
`assertFailed` models the `Assert(toAtomicType != NULL || toVectorType !=
NULL)` at expr.cpp 439, which aborts for inputs such as enum → struct. -/
inductive ConvErr where
  | fromVoid
  | toVoid
  | arrayToPtrIncompat
  | varyingToUniform
  | ptrToNonPointer
  | incompatPointers
  | incompatReferences
  | arrayIncompat
  | vectorSizeMismatch
  | structIncompat
  | enumIncompat
  | assertFailed
  | nonAtomicFrom
  | nonAtomicTo
deriving DecidableEq, Repr

/-- `PointerType::Void`, the canonical `void *` used at expr.cpp 303. -/
def ptrVoid : Ty := .pointer .voidType .uniform false

/-- The `fromPointerType != NULL` branch of `lDoTypeConv` (expr.cpp
248-294).  `fromType` is a pointer type here.  Factored out because the
zero-integer-literal case (expr.cpp 296-309) re-enters `lDoTypeConv` with
`PointerType::Void`, which lands in this branch. -/
def lDoTypeConvFromPointer (fromType toType : Ty) (expr : Option CExpr) :
    Except ConvErr (Option CExpr) :=
  -- 249-252: allow implicit conversion of pointers to bools
  if toType.isAtomicType && toType.IsBoolType then
    .ok (expr.map (CExpr.typeCast toType))
  -- 254-258: can convert pointers to arrays of the same type
  else if toType.isArrayType &&
      Ty.Equal fromType.GetBaseType (match toType with
        | .array e _ => e
        | _ => toType) then
    .ok (expr.map (CExpr.typeCast toType))
  else match toType with
  | .pointer toBase _ _ =>
    -- 267-270: any pointer type can be converted to a void *
    if toType.IsVoidPointer then .ok (expr.map (CExpr.typeCast toType))
    -- 271-276: and a NULL converts to any other pointer type
    else if fromType.IsVoidPointer &&
        (expr.map CExpr.isNullPointerExpr).getD false then
      .ok (expr.map (CExpr.typeCast toType))
    -- 277-287: otherwise the base types must match (modulo const)
    else if !Ty.Equal fromType.GetBaseType toBase &&
        !Ty.Equal fromType.GetBaseType.GetAsConstType toBase then
      .error .incompatPointers
    -- 289-290: uniform -> varying pointer conversion inserts a cast
    else if toType.IsVaryingType && fromType.IsUniformType then
      .ok (expr.map (CExpr.typeCast toType))
    -- 292-293: otherwise there is nothing to do
    else .ok expr
  | _ =>
    -- 259-266: pointer to non-pointer (and non-bool, non-array) fails
    .error .ptrToNonPointer

/-- The early array → pointer case of `lDoTypeConv` (expr.cpp 217-238):
conversion to a pointer to the array's element type. -/
def lDoTypeConvArrayToPointer (fromType toType : Ty) (expr : Option CExpr) :
    Except ConvErr (Option CExpr) :=
  match fromType, toType with
  | .array fe _, .pointer _ tv tc =>
    let eltType := if toType.GetBaseType.IsConstType then fe.GetAsConstType else fe
    if Ty.Equal toType (.pointer eltType tv tc) then
      .ok (expr.map (CExpr.typeCast toType))
    else .error .arrayToPtrIncompat
  | _, _ => .error .arrayToPtrIncompat

/-- The reference → reference case of `lDoTypeConv` (expr.cpp 317-340):
adding const to the target, or references to arrays of the same element
type.  `ft`/`tt` are the reference targets, `toType` the full destination
the inserted cast is annotated with. -/
def lDoTypeConvRefRef (ft tt toType : Ty) (expr : Option CExpr) :
    Except ConvErr (Option CExpr) :=
  if Ty.Equal tt ft.GetAsConstType then .ok (expr.map (CExpr.typeCast toType))
  else match ft, tt with
  | .array fe _, .array te _ =>
    if Ty.Equal fe te then .ok (expr.map (CExpr.typeCast toType))
    else .error .incompatReferences
  | _, _ => .error .incompatReferences

/-- The tail of `lDoTypeConv` (expr.cpp 372-470), reached when neither side
is a reference: const-stripping, array/array, vector/vector, struct/struct,
enum and atomic conversions, in source order. -/
def lDoTypeConvTail (fromType toType : Ty) (expr : Option CExpr) :
    Except ConvErr (Option CExpr) :=
  -- 372-374: const T → T
  if Ty.Equal toType fromType.GetAsNonConstType then
    .ok (expr.map (CExpr.typeCast toType))
  -- 376-377 strip reference targets: a no-op here, both sides are already
  -- non-references on this path.
  -- 378-398: array → array
  else match fromType, toType with
  | .array fe _, .array te _ =>
    if Ty.Equal te fe then .ok (expr.map (CExpr.typeCast toType))
    else if Ty.Equal te fe.GetAsConstType then .ok (expr.map (CExpr.typeCast toType))
    else .error .arrayIncompat
  | _, _ =>
  -- 400-410: vector → vector of the same size
  match fromType, toType with
  | .vector _ fn, .vector _ tn =>
    if fn != tn then .error .vectorSizeMismatch
    else .ok (expr.map (CExpr.typeCast toType))
  | _, _ =>
  -- 412-422: struct → struct, equal modulo uniform/varying and const
  if toType.isStructType && fromType.isStructType then
    if !Ty.Equal toType.GetAsUniformType.GetAsConstType
        fromType.GetAsUniformType.GetAsConstType then
      .error .structIncompat
    else .ok (expr.map (CExpr.typeCast toType))
  -- 424-435: no implicit conversion between different enum types
  else if toType.isEnumType && fromType.isEnumType then
    if !Ty.EqualIgnoringConst toType.GetAsUniformType fromType.GetAsUniformType then
      .error .enumIncompat
    else .ok (expr.map (CExpr.typeCast toType))
  -- 437-441: enum → atomic or vector is always ok
  else if fromType.isEnumType then
    if toType.isAtomicType || toType.isVectorType then
      .ok (expr.map (CExpr.typeCast toType))
    else .error .assertFailed
  -- 443-451: from here on the source type must be atomic
  else if !fromType.isAtomicType then .error .nonAtomicFrom
  -- 453-455: scalar → short-vector broadcast
  else if toType.isVectorType then .ok (expr.map (CExpr.typeCast toType))
  -- 457-465: and the destination must be atomic as well
  else if !toType.isAtomicType then .error .nonAtomicTo
  else .ok (expr.map (CExpr.typeCast toType))

/-- `lDoTypeConv` (expr.cpp 176-471): the ordered case analysis of the
implicit conversion engine.  `expr` is the in/out expression pointer
(`NULL` in the dry-run mode used by `CanConvertTypes`); on success the
possibly-rewritten expression is returned.

Two bounded recursive calls of the source are inlined, each with a comment
at the spot; the only remaining self-call (reference source → non-reference
destination, expr.cpp 341-355) recurses on the reference's target. -/
def lDoTypeConv (fromType toType : Ty) (expr : Option CExpr) :
    Except ConvErr (Option CExpr) :=
  -- 186-188: the types are equal; there's nothing to do
  if Ty.Equal toType fromType then .ok expr
  -- 190-195
  else if fromType.isVoid then .error .fromVoid
  -- 197-202
  else if toType.isVoid then .error .toVoid
  -- 217-238: array → pointer to the array's element type, done early
  else if fromType.isArrayType && toType.isPointerType then
    lDoTypeConvArrayToPointer fromType toType expr
  -- 240-246: varying → uniform is an error
  else if toType.IsUniformType && fromType.IsVaryingType then
    .error .varyingToUniform
  -- 248-294
  else if fromType.isPointerType then lDoTypeConvFromPointer fromType toType expr
  -- 296-309: a zero-valued integer expression converts as a NULL pointer
  else if toType.isPointerType && fromType.isAtomicType && fromType.IsIntType &&
      (expr.map CExpr.isAllIntZerosE).getD false then
    -- inlined recursive call `lDoTypeConv(PointerType::Void, toType, &npe)`
    -- (expr.cpp 303): after the toplevel equality test it lands in the
    -- pointer-source branch above.
    if Ty.Equal toType ptrVoid then .ok (some .nullPtrE)
    else lDoTypeConvFromPointer ptrVoid toType (some .nullPtrE)
  -- 311-314: T → const T
  else if Ty.Equal toType fromType.GetAsConstType then
    .ok (expr.map (CExpr.typeCast toType))
  else match fromType with
  | .reference ft =>
    match toType with
    | .reference tt =>
      -- 317-340: reference → reference
      lDoTypeConvRefRef ft tt toType expr
    | _ =>
      -- 341-355: reference T → T inserts a dereference and recurses
      lDoTypeConv ft toType (expr.map CExpr.derefE)
  | _ =>
    match toType with
    | .reference tt =>
      -- 357-371: T → reference T wraps in a ReferenceExpr and recurses; the
      -- recursive call `lDoTypeConv(new ReferenceType(fromType), toType)`
      -- immediately resolves in its toplevel equality test (expr.cpp 187)
      -- or its reference/reference case (317-340), inlined here.
      if Ty.Equal tt fromType then .ok (expr.map CExpr.refE)
      else lDoTypeConvRefRef fromType tt toType (expr.map CExpr.refE)
    | _ => lDoTypeConvTail fromType toType expr

/-- `CanConvertTypes` (expr.cpp 474-479): dry-run conversion test with no
expression. -/
def CanConvertTypes (fromType toType : Ty) : Bool :=
  (lDoTypeConv fromType toType none).isOk

/-- `TypeConvertExpr` (expr.cpp 482-494), specialized to the decision and
the rewritten expression. -/
def TypeConvertExpr (fromType toType : Ty) (e : CExpr) : Except ConvErr CExpr :=
  match lDoTypeConv fromType toType (some e) with
  | .ok (some e2) => .ok e2
  | .ok none => .ok e
  | .error err => .error err

/-! ## Overload resolution (expr.cpp 6104-6429) -/

/-- `lExactMatch` (expr.cpp 6109-6118): cost 0 when the call argument type
matches the formal exactly, modulo dropping const on a non-reference caller
type and adding a reference on the caller side. -/
def lExactMatch (callType funcArgType : Ty) : Int :=
  let callType := if !callType.isReferenceType then callType.GetAsNonConstType else callType
  let callType :=
    if funcArgType.isReferenceType && !callType.isReferenceType then Ty.reference callType
    else callType
  if Ty.Equal callType funcArgType then 0 else -1

/-- `lMatchIgnoringReferences` (expr.cpp 6125-6137): cost 1 when the types
match after stripping references (adding const to the caller side if the
formal is const). -/
def lMatchIgnoringReferences (callType funcArgType : Ty) : Int :=
  let prev := lExactMatch callType funcArgType
  if prev != -1 then prev
  else
    let callType := callType.GetReferenceTarget
    let callType := if funcArgType.IsConstType then callType.GetAsConstType else callType
    if Ty.Equal callType funcArgType.GetReferenceTarget then 1 else -1

/-- `lMatchWithTypeWidening` (expr.cpp 6143-6186): cost 1 when converting
the caller's atomic type to the formal's atomic type cannot lose
information, per the switch on the caller's basic type.  (`void` caller or
formal types would hit the switch's FATAL default in the source; the model
returns no-match, that input being unreachable from checked calls.) -/
def lMatchWithTypeWidening (callType funcArgType : Ty) : Int :=
  let prev := lMatchIgnoringReferences callType funcArgType
  if prev != -1 then prev
  else match callType, funcArgType with
  | .atomic cb cv _, .atomic fb fv _ =>
    if (Ty.atomic cb cv false).IsUniformType != (Ty.atomic fb fv false).IsUniformType then -1
    else match cb with
    | .bool => 1
    | .int8 | .uint8 => if fb != .bool then 1 else -1
    | .int16 | .uint16 =>
        if fb != .bool && fb != .int8 && fb != .uint8 then 1 else -1
    | .int32 | .uint32 =>
        if fb == .int32 || fb == .uint32 || fb == .int64 || fb == .uint64 then 1 else -1
    | .float => if fb == .double then 1 else -1
    | .int64 | .uint64 => if fb == .int64 || fb == .uint64 then 1 else -1
    | .double => -1
  | _, _ => -1

/-- `lMatchIgnoringUniform` (expr.cpp 6194-6206): cost 1 when the types
agree after only a uniform → varying conversion of the caller type. -/
def lMatchIgnoringUniform (callType funcArgType : Ty) : Int :=
  let prev := lMatchWithTypeWidening callType funcArgType
  if prev != -1 then prev
  else
    let callType := if !callType.isReferenceType then callType.GetAsNonConstType else callType
    if callType.IsUniformType && funcArgType.IsVaryingType &&
        Ty.Equal callType.GetAsVaryingType funcArgType then 1
    else -1

/-- `lMatchWithTypeConvSameVariability` (expr.cpp 6213-6225): cost 1 when
some implicit conversion applies and the variabilities agree. -/
def lMatchWithTypeConvSameVariability (callType funcArgType : Ty) : Int :=
  let prev := lMatchIgnoringUniform callType funcArgType
  if prev != -1 then prev
  else if CanConvertTypes callType funcArgType &&
      callType.IsUniformType == funcArgType.IsUniformType then 1
  else -1

/-- `lMatchWithTypeConv` (expr.cpp 6232-6239): cost 0 extra when any
implicit conversion gets from the caller type to the formal type. -/
def lMatchWithTypeConv (callType funcArgType : Ty) : Int :=
  let prev := lMatchWithTypeConvSameVariability callType funcArgType
  if prev != -1 then prev
  else if CanConvertTypes callType funcArgType then 0 else -1

/-- A function symbol: name, parameter types, and which parameters carry a
default expression (`FunctionType::GetParameterDefault(i) != NULL`). -/
structure FuncSym where
  name : String
  paramTypes : List Ty
  paramHasDefault : List Bool

/-- The per-candidate argument loop of `FunctionSymbolExpr::tryResolve`
(expr.cpp 6301-6327): per-argument costs from the predicate, a
null-capable argument against a pointer formal costing 0, sum over the
caller's arguments; failure of any argument fails the candidate.  The
source indexes `(*argCouldBeNULL)[i]` as `i` marches over the caller
arguments; the model consumes the flag list head-first, which visits the
same entries. -/
def lArgCostLoop (matchFunc : Ty → Ty → Int) :
    List Ty → List Ty → List Bool → Option Int
  | [], _, _ => some 0
  | _ :: _, [], _ => none
  | ct :: cts, pt :: pts, flags =>
    let argCost := matchFunc ct pt
    let argCost :=
      if argCost = -1 then
        if flags.headD false && pt.isPointerType then (0 : Int) else -1
      else argCost
    if argCost = -1 then none
    else (lArgCostLoop matchFunc cts pts flags.tail).map (argCost + ·)

/-- The candidate loop of `FunctionSymbolExpr::tryResolve` (expr.cpp
6281-6346), producing the `matches` vector of (cost, symbol) pairs in
candidate order: candidates taking fewer parameters than passed arguments
are skipped, and a candidate with unprovided trailing parameters qualifies
only if the first unprovided one has a default value. -/
def tryResolveMatches (matchFunc : Ty → Ty → Int) (callTypes : List Ty)
    (nullFlags : List Bool) : List FuncSym → List (Int × FuncSym)
  | [] => []
  | cand :: rest =>
    let tail := tryResolveMatches matchFunc callTypes nullFlags rest
    if callTypes.length > cand.paramTypes.length then tail
    else match lArgCostLoop matchFunc callTypes cand.paramTypes nullFlags with
    | none => tail
    | some cost =>
      if callTypes.length = cand.paramTypes.length then (cost, cand) :: tail
      else if callTypes.length < cand.paramTypes.length ∧
          cand.paramHasDefault.getD callTypes.length false = true then (cost, cand) :: tail
      else tail

/-- The duplicate-detecting scan of `lGetBestMatch` (expr.cpp 6254-6263). -/
def lGetBestMatchScan (minCost : Int) :
    List (Int × FuncSym) → Option FuncSym → Option FuncSym
  | [], acc => acc
  | p :: rest, acc =>
    if p.1 == minCost then
      match acc with
      | some _ => none
      | none => lGetBestMatchScan minCost rest (some p.2)
    else lGetBestMatchScan minCost rest acc

/-- `lGetBestMatch` (expr.cpp 6246-6265): the unique minimum-cost symbol,
or `none` when several tie.  (The source asserts the vector is non-empty;
its caller guards that.) -/
def lGetBestMatch : List (Int × FuncSym) → Option FuncSym
  | [] => none
  | p :: rest =>
    let minCost := rest.foldl (fun m q => min m q.1) p.1
    lGetBestMatchScan minCost (p :: rest) none

/-- The minimum-cost subset collected for the ambiguity diagnostic
(expr.cpp 6357-6364). -/
def lBestMatches : List (Int × FuncSym) → List FuncSym
  | [] => []
  | p :: rest =>
    let minCost := rest.foldl (fun m q => min m q.1) p.1
    ((p :: rest).filter (fun q => q.1 == minCost)).map (fun q => q.2)

/-- Outcome of one `tryResolve` tier: the source's `false` return is
`noMatch`; `true` with `matchingFunc` bound is `found`; `true` after the
ambiguity error is `ambiguous` with the tied minimum-cost candidates the
diagnostic lists. -/
inductive TryResult where
  | noMatch
  | found (s : FuncSym)
  | ambiguous (best : List FuncSym)

/-- `FunctionSymbolExpr::tryResolve` (expr.cpp 6274-6373). -/
def tryResolve (matchFunc : Ty → Ty → Int) (callTypes : List Ty)
    (nullFlags : List Bool) (candidateFunctions : List FuncSym) : TryResult :=
  let matchList := tryResolveMatches matchFunc callTypes nullFlags candidateFunctions
  match matchList with
  | [] => .noMatch
  | _ :: _ =>
    match lGetBestMatch matchList with
    | some s => .found s
    | none => .ambiguous (lBestMatches matchList)

/-- Outcome of `FunctionSymbolExpr::ResolveOverloads`: a unique binding, an
ambiguity error (which also stops the tier search), or the final
"Unable to find matching overload" error listing every candidate, with
`exactMatchOnly` recording the " only considering exact matches" message
variant. -/
inductive ResolveResult where
  | resolved (s : FuncSym)
  | ambiguous (best : List FuncSym)
  | noMatching (exactMatchOnly : Bool) (candidates : List FuncSym)

/-- The tier loop of `ResolveOverloads` (expr.cpp 6390-6428): try each
ranked predicate in order; `tryResolve` returning true stops — either with
a binding or with the ambiguity error — and exhausting the tiers emits the
no-matching-overload error naming all candidates. -/
def lResolveWithTiers (callTypes : List Ty) (nullFlags : List Bool)
    (candidateFunctions : List FuncSym) (exactMatchOnly : Bool) :
    List (Ty → Ty → Int) → ResolveResult
  | [] => .noMatching exactMatchOnly candidateFunctions
  | m :: ms =>
    match tryResolve m callTypes nullFlags candidateFunctions with
    | .noMatch => lResolveWithTiers callTypes nullFlags candidateFunctions exactMatchOnly ms
    | .found s => .resolved s
    | .ambiguous best => .ambiguous best

/-- The source's `name.substr(0,2) == "__"` (expr.cpp 6388), on the
character list of the name. -/
def lNameStartsWithTwoUnderscores (name : String) : Bool :=
  name.data.take 2 == ['_', '_']

/-- The flag list the loop consumes for `argCouldBeNULL`: absent means no
argument can be a NULL pointer. -/
def nullFlagList (argCouldBeNULL : Option (List Bool)) : List Bool :=
  argCouldBeNULL.getD []

/-- `FunctionSymbolExpr::ResolveOverloads` (expr.cpp 6376-6429): names
whose first two characters are `__` demand an exact match; otherwise the
six ranked predicates are tried in order. -/
def ResolveOverloads (name : String) (callTypes : List Ty)
    (argCouldBeNULL : Option (List Bool)) (candidateFunctions : List FuncSym) :
    ResolveResult :=
  let exactMatchOnly := lNameStartsWithTwoUnderscores name
  let tiers :=
    if exactMatchOnly then [lExactMatch]
    else [lExactMatch, lMatchIgnoringReferences, lMatchWithTypeWidening,
          lMatchIgnoringUniform, lMatchWithTypeConvSameVariability, lMatchWithTypeConv]
  lResolveWithTiers callTypes (nullFlagList argCouldBeNULL) candidateFunctions
    exactMatchOnly tiers

/-! ### Specification-level description of the resolver, phrased as the
spec states it (spec §4.5), for the refinement proof of claim C1. -/

/-- Spec §4.5: the per-argument cost of one predicate, a null-capable
argument against a pointer formal costing 0. -/
def specArgCost (matchFunc : Ty → Ty → Int) (nullFlag : Bool) (ct pt : Ty) :
    Option Int :=
  let c := matchFunc ct pt
  if c ≠ -1 then some c
  else if nullFlag && pt.isPointerType then some 0
  else none

/-- Spec §4.5: the list of per-argument costs of a candidate, or `none`
when some argument does not match under the predicate. -/
def specArgCosts (matchFunc : Ty → Ty → Int) :
    List Ty → List Ty → List Bool → Option (List Int)
  | [], _, _ => some []
  | _ :: _, [], _ => none
  | ct :: cts, pt :: pts, flags =>
    match specArgCost matchFunc (flags.headD false) ct pt,
        specArgCosts matchFunc cts pts flags.tail with
    | some c, some rest => some (c :: rest)
    | _, _ => none

/-- Spec §4.5: arity compatibility — callers ≤ formals, and the unprovided
formals must have defaults. -/
def specArityCompatible (callTypes : List Ty) (cand : FuncSym) : Prop :=
  callTypes.length ≤ cand.paramTypes.length ∧
    (callTypes.length = cand.paramTypes.length ∨
     cand.paramHasDefault.getD callTypes.length false = true)

instance (callTypes : List Ty) (cand : FuncSym) :
    Decidable (specArityCompatible callTypes cand) := by
  unfold specArityCompatible
  infer_instance

/-- Spec §4.5: the summed cost of an arity-compatible candidate whose
arguments all match under the tier's predicate. -/
def specCandidateCost (matchFunc : Ty → Ty → Int) (callTypes : List Ty)
    (nullFlags : List Bool) (cand : FuncSym) : Option Int :=
  if specArityCompatible callTypes cand then
    (specArgCosts matchFunc callTypes cand.paramTypes nullFlags).map List.sum
  else none

/-- Spec §4.5: the qualifying candidates of one tier with their costs. -/
def specTierMatches (matchFunc : Ty → Ty → Int) (callTypes : List Ty)
    (nullFlags : List Bool) (cands : List FuncSym) : List (Int × FuncSym) :=
  cands.filterMap fun c =>
    (specCandidateCost matchFunc callTypes nullFlags c).map (fun k => (k, c))

/-- Spec §4.5: the tier loop — bind the unique minimum-cost candidate, an
ambiguity stops without trying later tiers, an empty tier moves on, and
exhausting all tiers reports no-matching-overload with the full candidate
list. -/
def specResolveLoop (callTypes : List Ty) (nullFlags : List Bool)
    (cands : List FuncSym) (exactMatchOnly : Bool) :
    List (Ty → Ty → Int) → ResolveResult
  | [] => .noMatching exactMatchOnly cands
  | m :: ms =>
    match specTierMatches m callTypes nullFlags cands with
    | [] => specResolveLoop callTypes nullFlags cands exactMatchOnly ms
    | p :: rest =>
      let minCost := rest.foldl (fun a b => min a b.1) p.1
      let tied := (p :: rest).filter (fun q => q.1 == minCost)
      match tied with
      | [t] => .resolved t.2
      | _ => .ambiguous (tied.map (fun q => q.2))

/-- Spec §4.5 in full: ranked predicates in order, names beginning with two
underscores considering only the exact-match tier. -/
def specResolveOverloads (name : String) (callTypes : List Ty)
    (argCouldBeNULL : Option (List Bool)) (cands : List FuncSym) : ResolveResult :=
  let exactMatchOnly := lNameStartsWithTwoUnderscores name
  let tiers :=
    if exactMatchOnly then [lExactMatch]
    else [lExactMatch, lMatchIgnoringReferences, lMatchWithTypeWidening,
          lMatchIgnoringUniform, lMatchWithTypeConvSameVariability, lMatchWithTypeConv]
  specResolveLoop callTypes (nullFlagList argCouldBeNULL) cands exactMatchOnly tiers

/-! ## Constant folding (expr.cpp 844-925 and 1377-1621)

Lane payloads are `Int`: signed integers by value (int32 lanes lie in
[-2³¹, 2³¹)), unsigned by value (uint32 lanes in [0, 2³²)), booleans as
0/1, and `float`/`double` lanes as opaque payloads that are only ever
combined through an abstract record of IEEE operations — floating-point
arithmetic itself is outside the embedding.  A fold that executes undefined
behaviour in the C++ source (zero divisor, INT32_MIN / -1, out-of-range
shift or narrowing) is `none`. -/

/-- `BinaryExpr::Op`. -/
inductive BinOp where
  | Add | Sub | Mul | Div | Mod
  | Shl | Shr
  | Lt | Gt | Le | Ge | EqualCmp | NotEqual
  | BitAnd | BitXor | BitOr
  | LogicalAnd | LogicalOr
  | Comma
deriving DecidableEq, Repr

/-- `UnaryExpr::Op`. -/
inductive UnOp where
  | PreInc | PreDec | PostInc | PostDec | Negate | LogicalNot | BitNot
deriving DecidableEq, Repr

/-- Abstract IEEE semantics of one floating-point precision: arithmetic,
the reciprocal `1.f / x` used by the fast-math rewrite, comparisons, the
float → bool test, and negation.  The claims are about which rewrite or
fold happens, never about float values, so these stay parameters. -/
structure FloatSem where
  fadd : Int → Int → Int
  fsub : Int → Int → Int
  fmul : Int → Int → Int
  fdiv : Int → Int → Int
  frcp : Int → Int
  fneg : Int → Int
  flt : Int → Int → Bool
  fgt : Int → Int → Bool
  fle : Int → Int → Bool
  fge : Int → Int → Bool
  feq : Int → Int → Bool
  fne : Int → Int → Bool
  fnz : Int → Bool

/-- Expression model for the optimizer: constants with their type and lane
payloads, opaque non-constant subexpressions of known type, rebuilt
operator nodes, and the (resolved, typechecked) `rcp()` call the fast-math
rewrite introduces. -/
inductive FExpr where
  | constE (ty : Ty) (lanes : List Int)
  | opaqueE (tag : Nat) (ty : Ty)
  | binaryE (op : BinOp) (a b : FExpr)
  | unaryE (op : UnOp) (e : FExpr)
  | rcpCallE (arg : FExpr)

/-- The type of an optimizer expression.  After type checking, both
operands of an arithmetic node carry the common type, so a rebuilt node
reports its left operand's type; `rcp()` returns its argument's type. -/
def FExpr.GetType : FExpr → Option Ty
  | .constE ty _ => some ty
  | .opaqueE _ ty => some ty
  | .binaryE _ a _ => a.GetType
  | .unaryE _ e => e.GetType
  | .rcpCallE a => a.GetType

/-- Signed 32-bit two's-complement wrap (spec §4.6: "two's-complement wrap
for signed and unsigned"). -/
def wrap32 (x : Int) : Int := (x + 2 ^ 31) % 2 ^ 32 - 2 ^ 31

/-- Unsigned 32-bit wrap. -/
def uwrap32 (x : Int) : Int := x % 2 ^ 32

/-- The unsigned-32 view of a lane payload, for the bitwise operators. -/
def toU32 (x : Int) : Nat := (x % 2 ^ 32).toNat

/-- C `/` on int32: truncating division, undefined on a zero divisor and on
the overflow pair INT32_MIN / -1. -/
def i32div (a b : Int) : Option Int :=
  if b = 0 ∨ (a = -(2 ^ 31) ∧ b = -1) then none else some (a.tdiv b)

/-- C `%` on int32: remainder of truncating division, undefined with `/`. -/
def i32mod (a b : Int) : Option Int :=
  if b = 0 ∨ (a = -(2 ^ 31) ∧ b = -1) then none else some (a.tmod b)

/-- C `/` on uint32, undefined on a zero divisor. -/
def u32div (a b : Int) : Option Int :=
  if b = 0 then none else some (a.tdiv b)

/-- C `%` on uint32, undefined on a zero divisor. -/
def u32mod (a b : Int) : Option Int :=
  if b = 0 then none else some (a.tmod b)

/-- int32 `<<`: unspecified for shift amounts outside [0, 32) (spec §4.6:
"shifts by ≥ width are left unspecified"). -/
def i32shl (a b : Int) : Option Int :=
  if 0 ≤ b ∧ b < 32 then some (wrap32 (a * 2 ^ b.toNat)) else none

/-- int32 `>>`: arithmetic shift, unspecified outside [0, 32). -/
def i32shr (a b : Int) : Option Int :=
  if 0 ≤ b ∧ b < 32 then some (a.fdiv (2 ^ b.toNat)) else none

/-- uint32 `<<`, unspecified outside [0, 32). -/
def u32shl (a b : Int) : Option Int :=
  if 0 ≤ b ∧ b < 32 then some (uwrap32 (a * 2 ^ b.toNat)) else none

/-- uint32 `>>`, unspecified outside [0, 32). -/
def u32shr (a b : Int) : Option Int :=
  if 0 ≤ b ∧ b < 32 then some (a.tdiv (2 ^ b.toNat)) else none

/-- One integer instantiation of the fold templates: wrap-around ring
operations, partial division/remainder/shifts, bitwise operations. -/
structure IntSem where
  add : Int → Int → Int
  sub : Int → Int → Int
  mul : Int → Int → Int
  div : Int → Int → Option Int
  mod : Int → Int → Option Int
  shl : Int → Int → Option Int
  shr : Int → Int → Option Int
  band : Int → Int → Int
  bxor : Int → Int → Int
  bor : Int → Int → Int

/-- The int32_t instantiation. -/
def i32sem : IntSem where
  add a b := wrap32 (a + b)
  sub a b := wrap32 (a - b)
  mul a b := wrap32 (a * b)
  div := i32div
  mod := i32mod
  shl := i32shl
  shr := i32shr
  band a b := wrap32 (Nat.land (toU32 a) (toU32 b))
  bxor a b := wrap32 (Nat.xor (toU32 a) (toU32 b))
  bor a b := wrap32 (Nat.lor (toU32 a) (toU32 b))

/-- The uint32_t instantiation (also used for enum-typed constants, whose
basic type is uint32). -/
def u32sem : IntSem where
  add a b := uwrap32 (a + b)
  sub a b := uwrap32 (a - b)
  mul a b := uwrap32 (a * b)
  div := u32div
  mod := u32mod
  shl := u32shl
  shr := u32shr
  band a b := (Nat.land (toU32 a) (toU32 b) : Nat)
  bxor a b := (Nat.xor (toU32 a) (toU32 b) : Nat)
  bor a b := (Nat.lor (toU32 a) (toU32 b) : Nat)

/-- Comparison semantics for one lane type, for `lConstFoldBinLogicalOp`. -/
structure CmpSem where
  lt : Int → Int → Bool
  gt : Int → Int → Bool
  le : Int → Int → Bool
  ge : Int → Int → Bool
  eq : Int → Int → Bool
  ne : Int → Int → Bool
  toB : Int → Bool

/-- Integer lane comparisons (payloads carry their mathematical value, so
plain `Int` order is the C order for both signed and unsigned lanes). -/
def intCmp : CmpSem where
  lt a b := a < b
  gt a b := a > b
  le a b := a ≤ b
  ge a b := a ≥ b
  eq a b := a == b
  ne a b := a != b
  toB a := a != 0

/-- The comparison record of an abstract float precision. -/
def FloatSem.cmp (s : FloatSem) : CmpSem where
  lt := s.flt
  gt := s.fgt
  le := s.fle
  ge := s.fge
  eq := s.feq
  ne := s.fne
  toB := s.fnz

/-- Outcome of one fold template: the operator is not handled by this
template (the source returns NULL), the fold executes undefined behaviour,
or folded lanes. -/
inductive FoldOut where
  | notHandled
  | ub
  | folded (lanes : List Int)

/-- Lanewise total zip. -/
def zipLanes (f : Int → Int → Int) (v0 v1 : List Int) : List Int :=
  List.zipWith f v0 v1

/-- Lanewise partial zip; any undefined lane poisons the fold. -/
def zipLanesUB (f : Int → Int → Option Int) : List Int → List Int → Option (List Int)
  | [], _ => some []
  | _, [] => some []
  | a :: as_, b :: bs =>
    match f a b, zipLanesUB f as_ bs with
    | some c, some rest => some (c :: rest)
    | _, _ => none

/-- `lConstFoldBinArithOp` (expr.cpp 1434-1449): Add/Sub/Mul/Div. -/
def lConstFoldBinArithOp (add sub mul : Int → Int → Int)
    (div : Int → Int → Option Int) (op : BinOp) (v0 v1 : List Int) : FoldOut :=
  match op with
  | .Add => .folded (zipLanes add v0 v1)
  | .Sub => .folded (zipLanes sub v0 v1)
  | .Mul => .folded (zipLanes mul v0 v1)
  | .Div =>
    match zipLanesUB div v0 v1 with
    | some l => .folded l
    | none => .ub
  | _ => .notHandled

/-- `lConstFoldBinIntOp` (expr.cpp 1386-1403): Mod/Shl/Shr/BitAnd/BitXor/
BitOr, the integer-only operators. -/
def lConstFoldBinIntOp (sem : IntSem) (op : BinOp) (v0 v1 : List Int) : FoldOut :=
  match op with
  | .Mod =>
    match zipLanesUB sem.mod v0 v1 with
    | some l => .folded l
    | none => .ub
  | .Shl =>
    match zipLanesUB sem.shl v0 v1 with
    | some l => .folded l
    | none => .ub
  | .Shr =>
    match zipLanesUB sem.shr v0 v1 with
    | some l => .folded l
    | none => .ub
  | .BitAnd => .folded (zipLanes sem.band v0 v1)
  | .BitXor => .folded (zipLanes sem.bxor v0 v1)
  | .BitOr => .folded (zipLanes sem.bor v0 v1)
  | _ => .notHandled

/-- `lConstFoldBinLogicalOp` (expr.cpp 1408-1429): the comparisons and
short-circuit operators, producing bool lanes. -/
def lConstFoldBinLogicalOp (cmp : CmpSem) (op : BinOp) (v0 v1 : List Int) :
    Option (List Bool) :=
  match op with
  | .Lt => some (List.zipWith cmp.lt v0 v1)
  | .Gt => some (List.zipWith cmp.gt v0 v1)
  | .Le => some (List.zipWith cmp.le v0 v1)
  | .Ge => some (List.zipWith cmp.ge v0 v1)
  | .EqualCmp => some (List.zipWith cmp.eq v0 v1)
  | .NotEqual => some (List.zipWith cmp.ne v0 v1)
  | .LogicalAnd => some (List.zipWith (fun a b => cmp.toB a && cmp.toB b) v0 v1)
  | .LogicalOr => some (List.zipWith (fun a b => cmp.toB a || cmp.toB b) v0 v1)
  | _ => none

/-- `lConstFoldBoolBinOp` (expr.cpp 1454-1477): the fold for bool-typed
operands. -/
def lConstFoldBoolBinOp (op : BinOp) (v0 v1 : List Bool) : Option (List Bool) :=
  match op with
  | .BitAnd => some (List.zipWith (fun a b => a && b) v0 v1)
  | .BitXor => some (List.zipWith (fun a b => a != b) v0 v1)
  | .BitOr => some (List.zipWith (fun a b => a || b) v0 v1)
  | .Lt => some (List.zipWith (fun a b => !a && b) v0 v1)
  | .Gt => some (List.zipWith (fun a b => a && !b) v0 v1)
  | .Le => some (List.zipWith (fun a b => !a || b) v0 v1)
  | .Ge => some (List.zipWith (fun a b => a || !b) v0 v1)
  | .EqualCmp => some (List.zipWith (fun a b => a == b) v0 v1)
  | .NotEqual => some (List.zipWith (fun a b => a != b) v0 v1)
  | .LogicalAnd => some (List.zipWith (fun a b => a && b) v0 v1)
  | .LogicalOr => some (List.zipWith (fun a b => a || b) v0 v1)
  | _ => none

/-- Bool lanes from 0/1 payloads and back. -/
def lanesAsBool (l : List Int) : List Bool := l.map (fun x => x != 0)

/-- 0/1 payloads from bool lanes. -/
def boolsAsLanes (l : List Bool) : List Int := l.map (fun b => if b then 1 else 0)

/-- The bool type of the same shape as the given type's variability, the
result type of a logical fold (expr.cpp 1426-1428). -/
def lFoldBoolType (t : Ty) : Ty :=
  if t.IsUniformType then .atomic .bool .uniform false else .atomic .bool .varying false

/-- The constant-folding tail of `BinaryExpr::Optimize` (expr.cpp
1547-1621): nothing happens unless both operands are constants; otherwise
dispatch on the operands' (non-const) common type and run the applicable
fold templates in the source's order. -/
def lBinaryConstFold (fsem dsem : FloatSem) (op : BinOp) (arg0 arg1 : FExpr) :
    Option FExpr :=
  match arg0, arg1 with
  | .constE t0 v0, .constE _ v1 =>
    let type := t0.GetAsNonConstType
    if Ty.Equal type (.atomic .float .uniform false) ||
        Ty.Equal type (.atomic .float .varying false) then
      match lConstFoldBinArithOp fsem.fadd fsem.fsub fsem.fmul
          (fun a b => some (fsem.fdiv a b)) op v0 v1 with
      | .folded l => some (.constE t0 l)
      | .ub => none
      | .notHandled =>
        match lConstFoldBinLogicalOp fsem.cmp op v0 v1 with
        | some bl => some (.constE (lFoldBoolType t0) (boolsAsLanes bl))
        | none => some (.binaryE op arg0 arg1)
    else if Ty.Equal type (.atomic .double .uniform false) ||
        Ty.Equal type (.atomic .double .varying false) then
      match lConstFoldBinArithOp dsem.fadd dsem.fsub dsem.fmul
          (fun a b => some (dsem.fdiv a b)) op v0 v1 with
      | .folded l => some (.constE t0 l)
      | .ub => none
      | .notHandled =>
        match lConstFoldBinLogicalOp dsem.cmp op v0 v1 with
        | some bl => some (.constE (lFoldBoolType t0) (boolsAsLanes bl))
        | none => some (.binaryE op arg0 arg1)
    else if Ty.Equal type (.atomic .int32 .uniform false) ||
        Ty.Equal type (.atomic .int32 .varying false) then
      match lConstFoldBinArithOp i32sem.add i32sem.sub i32sem.mul i32sem.div op v0 v1 with
      | .folded l => some (.constE t0 l)
      | .ub => none
      | .notHandled =>
        match lConstFoldBinIntOp i32sem op v0 v1 with
        | .folded l => some (.constE t0 l)
        | .ub => none
        | .notHandled =>
          match lConstFoldBinLogicalOp intCmp op v0 v1 with
          | some bl => some (.constE (lFoldBoolType t0) (boolsAsLanes bl))
          | none => some (.binaryE op arg0 arg1)
    else if Ty.Equal type (.atomic .uint32 .uniform false) ||
        Ty.Equal type (.atomic .uint32 .varying false) || type.isEnumType then
      match lConstFoldBinArithOp u32sem.add u32sem.sub u32sem.mul u32sem.div op v0 v1 with
      | .folded l => some (.constE t0 l)
      | .ub => none
      | .notHandled =>
        match lConstFoldBinIntOp u32sem op v0 v1 with
        | .folded l => some (.constE t0 l)
        | .ub => none
        | .notHandled =>
          match lConstFoldBinLogicalOp intCmp op v0 v1 with
          | some bl => some (.constE (lFoldBoolType t0) (boolsAsLanes bl))
          | none => some (.binaryE op arg0 arg1)
    else if Ty.Equal type (.atomic .bool .uniform false) ||
        Ty.Equal type (.atomic .bool .varying false) then
      match lConstFoldBoolBinOp op (lanesAsBool v0) (lanesAsBool v1) with
      | some bl => some (.constE t0 (boolsAsLanes bl))
      | none =>
        match lConstFoldBinLogicalOp intCmp op v0 v1 with
        | some bl => some (.constE (lFoldBoolType t0) (boolsAsLanes bl))
        | none => some (.binaryE op arg0 arg1)
    else some (.binaryE op arg0 arg1)
  | _, _ => some (.binaryE op arg0 arg1)

/-- The four float types tested at expr.cpp 1494-1497 and 1514-1517. -/
def lIsFloatDivType (t : Ty) : Bool :=
  Ty.Equal t (.atomic .float .uniform false) || Ty.Equal t (.atomic .float .varying false) ||
  Ty.Equal t (.atomic .float .uniform true) || Ty.Equal t (.atomic .float .varying true)

/-- `BinaryExpr::Optimize` (expr.cpp 1480-1621).  Returns the optimized
node together with a flag recording whether the "rcp() not found from
stdlib" warning was emitted; `none` is a fold that executes undefined
behaviour.  `rcpFound` models `m->symbolTable->LookupFunction("rcp")`
finding the stdlib builtin (the symbol table is not part of the source
sample).  The two recursive `::Optimize(::TypeCheck(...))` calls of the
source are inlined: `::TypeCheck` is the identity on the rebuilt product
(its operands are already typechecked and share one float type), and the
recursive optimize of a `Mul` skips the fast-math division section, so
both reduce to the constant-folding tail. -/
def BinaryOptimize (fastMath rcpFound : Bool) (fsem dsem : FloatSem)
    (op : BinOp) (arg0 arg1 : FExpr) : Option (FExpr × Bool) :=
  -- 1492-1509: transform x / const → x * (1/const)
  if fastMath && op == .Div &&
      (match arg1 with
       | .constE t1 _ => lIsFloatDivType t1
       | _ => false) then
    match arg1 with
    | .constE t1 v1 =>
      let einv := FExpr.constE t1 (v1.map fsem.frcp)
      (lBinaryConstFold fsem dsem .Mul arg0 einv).map (fun e => (e, false))
    | _ => none
  -- 1511-1544: transform x / y → x * rcp(y)
  else if fastMath && op == .Div &&
      (match arg1.GetType with
       | some t1 => lIsFloatDivType t1
       | none => false) then
    if rcpFound then
      (lBinaryConstFold fsem dsem .Mul arg0 (.rcpCallE arg1)).map (fun e => (e, false))
    else
      -- 1540-1542: warn and fall through to the folding tail
      (lBinaryConstFold fsem dsem op arg0 arg1).map (fun e => (e, true))
  else (lBinaryConstFold fsem dsem op arg0 arg1).map (fun e => (e, false))

/-- The six base types `UnaryExpr::Optimize` declines to fold (expr.cpp
855-864). -/
def lUnaryElidedBaseType (baseType : Ty) : Bool :=
  Ty.Equal baseType (.atomic .int8 .uniform false) ||
  Ty.Equal baseType (.atomic .uint8 .uniform false) ||
  Ty.Equal baseType (.atomic .int16 .uniform false) ||
  Ty.Equal baseType (.atomic .uint16 .uniform false) ||
  Ty.Equal baseType (.atomic .int64 .uniform false) ||
  Ty.Equal baseType (.atomic .uint64 .uniform false)

/-- `UnaryExpr::Optimize` (expr.cpp 844-925).  `none` models undefined
behaviour in the double round-trip of the Negate case (negating INT32_MIN,
or a nonzero unsigned lane, overflows the narrowing cast of `ConstExpr
::ConstExpr(ConstExpr *, double *)`, expr.cpp 3977-4028) and the FATAL
defaults of the switch. -/
def UnaryOptimize (fsem dsem : FloatSem) (op : UnOp) (expr : FExpr) : Option FExpr :=
  match expr with
  | .constE ty lanes =>
    -- 855-864: int8/uint8/int16/uint16/int64/uint64 are not folded
    let baseType := ty.GetAsNonConstType.GetAsUniformType
    if lUnaryElidedBaseType baseType then some (.unaryE op expr)
    else
      match op with
      | .PreInc | .PreDec | .PostInc | .PostDec =>
        -- 867-873: illegal to modify a constant; an error is issued elsewhere
        some (.unaryE op expr)
      | .Negate =>
        -- 874-884: negate through AsDouble, then narrow back to the type
        match ty with
        | .atomic .bool _ _ =>
          some (.constE ty (lanes.map (fun x => if x != 0 then 1 else 0)))
        | .atomic .int32 _ _ =>
          if lanes.any (fun x => x == -(2 ^ 31)) then none
          else some (.constE ty (lanes.map (fun x => -x)))
        | .atomic .uint32 _ _ =>
          if lanes.any (fun x => x != 0) then none
          else some (.constE ty lanes)
        | .enumT _ _ _ =>
          if lanes.any (fun x => x != 0) then none
          else some (.constE ty lanes)
        | .atomic .float _ _ => some (.constE ty (lanes.map fsem.fneg))
        | .atomic .double _ _ => some (.constE ty (lanes.map dsem.fneg))
        | _ => none
      | .BitNot =>
        -- 885-909
        match ty with
        | .atomic .int32 _ _ => some (.constE ty (lanes.map (fun x => -x - 1)))
        | .atomic .uint32 _ _ => some (.constE ty (lanes.map (fun x => 2 ^ 32 - 1 - x)))
        | .enumT _ _ _ => some (.constE ty (lanes.map (fun x => 2 ^ 32 - 1 - x)))
        | _ => none
      | .LogicalNot =>
        -- 910-920
        match ty with
        | .atomic .bool _ _ =>
          some (.constE ty (lanes.map (fun x => if x == 0 then 1 else 0)))
        | _ => none
  | _ => some (.unaryE op expr)

/-! ## The pointer cases of `BinaryExpr::GetType` (expr.cpp 1316-1333) -/

/-- The pointer-typed first-operand cases of `BinaryExpr::GetType`: pointer
difference has the target's pointer-sized signed integer type (int32 when
the target is 32-bit or 32-bit addressing is forced, int64 otherwise),
varying if either operand is varying; pointer ± integer keeps the pointer
type.  Other operators fall through to the general path, outside this
fragment. -/
def BinaryExprGetTypePointer (op : BinOp) (type0 type1 : Ty)
    (is32Bit force32BitAddressing : Bool) : Option Ty :=
  if type0.isPointerType then
    if op == .Add then some type0
    else if op == .Sub then
      if type1.isPointerType then
        let diffType : Ty :=
          if is32Bit || force32BitAddressing then .atomic .int32 .uniform false
          else .atomic .int64 .uniform false
        let diffType :=
          if type0.IsVaryingType || type1.IsVaryingType then diffType.GetAsVaryingType
          else diffType
        some diffType
      else some type0
    else none
  else none

/-! ## Assignment checking (expr.cpp 2082-2200) -/

/-- `AssignExpr::Op`. -/
inductive AssignOp where
  | Assign | MulAssign | DivAssign | ModAssign | AddAssign | SubAssign
  | ShlAssign | ShrAssign | AndAssign | XorAssign | OrAssign
deriving DecidableEq, Repr

/-- The diagnostics `AssignExpr::TypeCheck` can produce on the modelled
paths, in source order.  `constStructMember` carries the struct named in
the message, the offending member, its type, and whether the nested
message form (expr.cpp 2096-2101) was used. -/
inductive AssignErr where
  | lhsNotAssignable
  | ptrArithOnVoid
  | illegalOpOnPointer
  | arrayAssign
  | convFailed (e : ConvErr)
  | assignToConst (t : Ty)
  | constStructMember (structName memberName : String) (memberTy : Ty) (nested : Bool)

/-- `lCheckForConstStructMember` (expr.cpp 2084-2110) over a member list:
report the first member whose type is const, recursing into struct-typed
members; `isInitial` tracks the source's `structType == initialType`
pointer comparison selecting the message form. -/
def lCheckForConstStructMember (isInitial : Bool) (sname : String) :
    Members → Option AssignErr
  | .nil => none
  | .cons mname mty rest =>
    if mty.IsConstType then some (.constStructMember sname mname mty (!isInitial))
    else match mty with
    | .structT sn2 m2 _ _ =>
      match lCheckForConstStructMember false sn2 m2 with
      | some e => some e
      | none => lCheckForConstStructMember isInitial sname rest
    | _ => lCheckForConstStructMember isInitial sname rest

/-- `AssignExpr::TypeCheck` (expr.cpp 2113-2200).  The rvalue is a plain
typed expression (the `FunctionSymbolExpr` special case at 2123-2146 for
overloaded function-pointer rvalues is outside this model);
`hasBaseSymbol` is `lvalue->GetBaseSymbol() != NULL`; `is32Bit` is
`g->target.is32Bit`. -/
def AssignExprTypeCheck (op : AssignOp) (lvalueType rvalueType : Ty)
    (rvalue : CExpr) (hasBaseSymbol : Bool) (is32Bit : Bool) :
    Except AssignErr Unit :=
  -- 2118-2121: dereference a reference lvalue
  let lhsType := if lvalueType.isReferenceType then lvalueType.GetReferenceTarget
    else lvalueType
  -- 2148-2152
  if !hasBaseSymbol then .error .lhsNotAssignable
  else
    -- 2154-2183: convert the rvalue as the lvalue's shape demands
    let conv : Except AssignErr Unit :=
      if lhsType.isPointerType then
        if op == .AddAssign || op == .SubAssign then
          if lhsType.IsVoidPointer then .error .ptrArithOnVoid
          else
            let deltaType : Ty :=
              if is32Bit then .atomic .int32 .uniform false else .atomic .int64 .uniform false
            let deltaType :=
              if lhsType.IsVaryingType then deltaType.GetAsVaryingType else deltaType
            match lDoTypeConv rvalueType deltaType (some rvalue) with
            | .ok _ => .ok ()
            | .error e => .error (.convFailed e)
        else if op == .Assign then
          match lDoTypeConv rvalueType lhsType (some rvalue) with
          | .ok _ => .ok ()
          | .error e => .error (.convFailed e)
        else .error .illegalOpOnPointer
      else if lhsType.isArrayType then .error .arrayAssign
      else
        match lDoTypeConv rvalueType lhsType (some rvalue) with
        | .ok _ => .ok ()
        | .error e => .error (.convFailed e)
    match conv with
    | .error e => .error e
    | .ok _ =>
      -- 2188-2192
      if lhsType.IsConstType then .error (.assignToConst lhsType)
      -- 2194-2197
      else match lhsType with
      | .structT sn m _ _ =>
        match lCheckForConstStructMember true sn m with
        | some e => .error e
        | none => .ok ()
      | _ => .ok ()

/-- The shapes for which the uniform → varying broadcast claim is stated:
atomic, enum, pointer, short vector (of an atomic element, the only
elements the language's vectors have), struct.  Arrays, references and
`void` are excluded. -/
def broadcastable : Ty → Bool
  | .atomic _ _ _ => true
  | .enumT _ _ _ => true
  | .pointer _ _ _ => true
  | .vector e _ => e.isAtomicType
  | .structT _ _ _ _ => true
  | _ => false

/-! ## Shared concrete sample objects used by witnesses and
counterexamples -/

/-- uniform int16. -/
def tyI16u : Ty := .atomic .int16 .uniform false

/-- uniform int32. -/
def tyI32u : Ty := .atomic .int32 .uniform false

/-- uniform int64. -/
def tyI64u : Ty := .atomic .int64 .uniform false

/-- uniform float. -/
def tyFltu : Ty := .atomic .float .uniform false

/-- uniform bool. -/
def tyBoolu : Ty := .atomic .bool .uniform false

/-- Candidate `int f(float)` of the C2 scenario. -/
def fFloat : FuncSym := ⟨"f", [tyFltu], [false]⟩

/-- Candidate `int f(int64)` of the C2 scenario. -/
def fInt64 : FuncSym := ⟨"f", [tyI64u], [false]⟩

/-- Builtin candidate `__g(int32)` of the C9 scenario. -/
def gExact : FuncSym := ⟨"__g", [tyI32u], [false]⟩

/-- Builtin candidate `__g(reference int32)` of the C9 scenario. -/
def gRef : FuncSym := ⟨"__g", [.reference tyI32u], [false]⟩

/-- A sample point of the abstract floating-point parameters, used to
instantiate witnesses (the claims hold for every `FloatSem`). -/
def someFloatSem : FloatSem where
  fadd a _ := a
  fsub a _ := a
  fmul a _ := a
  fdiv a _ := a
  frcp a := a
  fneg a := a
  flt _ _ := false
  fgt _ _ := false
  fle _ _ := false
  fge _ _ := false
  feq _ _ := false
  fne _ _ := false
  fnz _ := false

/-- The struct `struct S { const int k; }` of the C7 scenario. -/
def structS : Ty := .structT "S" (.cons "k" (.atomic .int32 .uniform true) .nil) .uniform false

end Ispc

namespace Ispc

/-! ## Helper lemmas about the type algebra -/

mutual

/-- Structural equality is reflexive. -/
theorem Ty.equal_refl : ∀ t : Ty, Ty.Equal t t = true
  | .atomic _ _ _ => by simp [Ty.Equal]
  | .voidType => by simp [Ty.Equal]
  | .enumT _ _ _ => by simp [Ty.Equal]
  | .pointer b _ _ => by simp [Ty.Equal, Ty.equal_refl b]
  | .reference t => by simp [Ty.Equal, Ty.equal_refl t]
  | .array e _ => by simp [Ty.Equal, Ty.equal_refl e]
  | .vector e _ => by simp [Ty.Equal, Ty.equal_refl e]
  | .structT _ m _ _ => by simp [Ty.Equal, Members.membersEqual_refl m]

/-- Structural equality of member lists is reflexive. -/
theorem Members.membersEqual_refl : ∀ m : Members, Members.Equal m m = true
  | .nil => by simp [Members.Equal]
  | .cons _ t r => by simp [Members.Equal, Ty.equal_refl t, Members.membersEqual_refl r]

end

mutual

/-- `as_uniform ∘ as_varying = as_uniform` (spec §8 property 4). -/
theorem Ty.asUniform_asVarying : ∀ t : Ty,
    t.GetAsVaryingType.GetAsUniformType = t.GetAsUniformType
  | .atomic _ _ _ => rfl
  | .voidType => rfl
  | .enumT _ _ _ => rfl
  | .pointer _ _ _ => rfl
  | .reference _ => rfl
  | .array e n => by
      simp [Ty.GetAsVaryingType, Ty.GetAsUniformType, Ty.asUniform_asVarying e]
  | .vector e n => by
      simp [Ty.GetAsVaryingType, Ty.GetAsUniformType, Ty.asUniform_asVarying e]
  | .structT _ m _ _ => by
      simp [Ty.GetAsVaryingType, Ty.GetAsUniformType, Members.membersAsUniform_asVarying m]

/-- Member-list version of `as_uniform ∘ as_varying = as_uniform`. -/
theorem Members.membersAsUniform_asVarying : ∀ m : Members,
    Members.getAsUniform (Members.getAsVarying m) = Members.getAsUniform m
  | .nil => rfl
  | .cons _ t r => by
      simp [Members.getAsVarying, Members.getAsUniform, Ty.asUniform_asVarying t,
        Members.membersAsUniform_asVarying r]

end

mutual

/-- `as_uniform` is idempotent. -/
theorem Ty.asUniform_idem : ∀ t : Ty,
    t.GetAsUniformType.GetAsUniformType = t.GetAsUniformType
  | .atomic _ _ _ => rfl
  | .voidType => rfl
  | .enumT _ _ _ => rfl
  | .pointer _ _ _ => rfl
  | .reference _ => rfl
  | .array e n => by simp [Ty.GetAsUniformType, Ty.asUniform_idem e]
  | .vector e n => by simp [Ty.GetAsUniformType, Ty.asUniform_idem e]
  | .structT _ m _ _ => by simp [Ty.GetAsUniformType, Members.membersAsUniform_idem m]

/-- Member-list version of `as_uniform` idempotence. -/
theorem Members.membersAsUniform_idem : ∀ m : Members,
    Members.getAsUniform (Members.getAsUniform m) = Members.getAsUniform m
  | .nil => rfl
  | .cons _ t r => by
      simp [Members.getAsUniform, Ty.asUniform_idem t, Members.membersAsUniform_idem r]

end

/-- A type cannot be uniform and varying at once, and structural equality
distinguishes a uniform type from a varying one. -/
theorem Ty.equal_false_of_uniform_varying :
    ∀ (a b : Ty), a.IsUniformType = true → b.IsVaryingType = true → Ty.Equal a b = false
  | .atomic _ v1 _, b, hu, hv => by
      cases b <;> simp_all [Ty.Equal, Ty.IsUniformType, Ty.IsVaryingType]
  | .voidType, b, hu, hv => by simp [Ty.IsUniformType] at hu
  | .enumT _ v1 _, b, hu, hv => by
      cases b <;> simp_all [Ty.Equal, Ty.IsUniformType, Ty.IsVaryingType]
  | .pointer _ v1 _, b, hu, hv => by
      cases b <;> simp_all [Ty.Equal, Ty.IsUniformType, Ty.IsVaryingType]
  | .reference _, b, hu, hv => by
      cases b <;> simp_all [Ty.Equal, Ty.IsUniformType, Ty.IsVaryingType]
  | .array e1 n1, b, hu, hv => by
      cases b <;> simp_all [Ty.Equal, Ty.IsUniformType, Ty.IsVaryingType]
      case array e2 n2 =>
        intro he
        rw [Ty.equal_false_of_uniform_varying e1 e2 hu hv] at he
        exact absurd he Bool.false_ne_true
  | .vector e1 n1, b, hu, hv => by
      cases b <;> simp_all [Ty.Equal, Ty.IsUniformType, Ty.IsVaryingType]
      case vector e2 n2 =>
        intro he
        rw [Ty.equal_false_of_uniform_varying e1 e2 hu hv] at he
        exact absurd he Bool.false_ne_true
  | .structT _ m1 v1 _, b, hu, hv => by
      cases b <;> simp_all [Ty.Equal, Ty.IsUniformType, Ty.IsVaryingType]

/-- A manual one-step unfolding of `lDoTypeConv` (the machine-generated
equations for this definition are too large for the rewriter). -/
theorem lDoTypeConv_eq_def (fromType toType : Ty) (expr : Option CExpr) :
    lDoTypeConv fromType toType expr =
      (if Ty.Equal toType fromType then .ok expr
       else if fromType.isVoid then .error .fromVoid
       else if toType.isVoid then .error .toVoid
       else if fromType.isArrayType && toType.isPointerType then
         lDoTypeConvArrayToPointer fromType toType expr
       else if toType.IsUniformType && fromType.IsVaryingType then
         .error .varyingToUniform
       else if fromType.isPointerType then lDoTypeConvFromPointer fromType toType expr
       else if toType.isPointerType && fromType.isAtomicType && fromType.IsIntType &&
           (expr.map CExpr.isAllIntZerosE).getD false then
         if Ty.Equal toType ptrVoid then .ok (some .nullPtrE)
         else lDoTypeConvFromPointer ptrVoid toType (some .nullPtrE)
       else if Ty.Equal toType fromType.GetAsConstType then
         .ok (expr.map (CExpr.typeCast toType))
       else match fromType with
       | .reference ft =>
         match toType with
         | .reference tt => lDoTypeConvRefRef ft tt toType expr
         | _ => lDoTypeConv ft toType (expr.map CExpr.derefE)
       | _ =>
         match toType with
         | .reference tt =>
           if Ty.Equal tt fromType then .ok (expr.map CExpr.refE)
           else lDoTypeConvRefRef fromType tt toType (expr.map CExpr.refE)
         | _ => lDoTypeConvTail fromType toType expr) := by
  cases fromType <;> rfl

/-- The varying-source / uniform-destination branch: whenever the
destination is uniform and the source is varying — the source not being an
array converting to a pointer — `lDoTypeConv` stops with the
varying-to-uniform error, for any expression. -/
theorem lDoTypeConv_varying_to_uniform (fromT toT : Ty) (e : Option CExpr)
    (hu : toT.IsUniformType = true) (hv : fromT.IsVaryingType = true)
    (hnap2 : (fromT.isArrayType && toT.isPointerType) = false) :
    lDoTypeConv fromT toT e = .error .varyingToUniform := by
  have h1 : Ty.Equal toT fromT = false := Ty.equal_false_of_uniform_varying toT fromT hu hv
  have h2 : fromT.isVoid = false := by
    cases fromT <;> simp_all [Ty.IsVaryingType, Ty.isVoid]
  have h3 : toT.isVoid = false := by
    cases toT <;> simp_all [Ty.IsUniformType, Ty.isVoid]
  rw [lDoTypeConv_eq_def]
  simp [h1, h2, h3, hnap2, hu, hv]

/-- The broadcast direction: a uniform atomic, enum, pointer, vector or
struct type converts implicitly to its varying version, with a `TypeCast`
to the varying type inserted around the expression. -/
theorem lDoTypeConv_broadcast (t : Ty) (hb : broadcastable t = true) (e : Option CExpr) :
    lDoTypeConv t.GetAsUniformType t.GetAsVaryingType e
      = .ok (e.map (CExpr.typeCast t.GetAsVaryingType)) := by
  cases t with
  | atomic b v c =>
    simp [Ty.GetAsUniformType, Ty.GetAsVaryingType, lDoTypeConv_eq_def, lDoTypeConvTail, Ty.Equal,
      Ty.isVoid, Ty.isArrayType, Ty.isPointerType, Ty.IsUniformType, Ty.IsVaryingType,
      Ty.isAtomicType, Ty.GetAsConstType, Ty.isReferenceType, Ty.GetAsNonConstType,
      Ty.isVectorType, Ty.isStructType, Ty.isEnumType]
  | enumT n v c =>
    simp [Ty.GetAsUniformType, Ty.GetAsVaryingType, lDoTypeConv_eq_def, lDoTypeConvTail, Ty.Equal,
      Ty.isVoid, Ty.isArrayType, Ty.isPointerType, Ty.IsUniformType, Ty.IsVaryingType,
      Ty.isAtomicType, Ty.GetAsConstType, Ty.isReferenceType, Ty.GetAsNonConstType,
      Ty.isVectorType, Ty.isStructType, Ty.isEnumType, Ty.EqualIgnoringConst, Ty.stripConst]
  | pointer b v c =>
    cases b <;>
    simp [Ty.GetAsUniformType, Ty.GetAsVaryingType, lDoTypeConv_eq_def, lDoTypeConvFromPointer,
      Ty.Equal, Ty.isVoid, Ty.isArrayType, Ty.isPointerType, Ty.IsUniformType, Ty.IsVaryingType,
      Ty.isAtomicType, Ty.GetAsConstType, Ty.isReferenceType, Ty.GetAsNonConstType,
      Ty.IsVoidPointer, Ty.IsBoolType, Ty.GetBaseType, Ty.equal_refl, Members.membersEqual_refl]
  | vector el n =>
    cases el <;> simp [broadcastable, Ty.isAtomicType] at hb
    simp [Ty.GetAsUniformType, Ty.GetAsVaryingType, lDoTypeConv_eq_def, lDoTypeConvTail, Ty.Equal,
      Ty.isVoid, Ty.isArrayType, Ty.isPointerType, Ty.IsUniformType, Ty.IsVaryingType,
      Ty.isAtomicType, Ty.GetAsConstType, Ty.isReferenceType, Ty.GetAsNonConstType,
      Ty.isVectorType, Ty.isStructType, Ty.isEnumType]
  | structT n m v c =>
    simp [Ty.GetAsUniformType, Ty.GetAsVaryingType, lDoTypeConv_eq_def, lDoTypeConvTail, Ty.Equal,
      Ty.isVoid, Ty.isArrayType, Ty.isPointerType, Ty.IsUniformType, Ty.IsVaryingType,
      Ty.isAtomicType, Ty.GetAsConstType, Ty.isReferenceType, Ty.GetAsNonConstType,
      Ty.isVectorType, Ty.isStructType, Ty.isEnumType, Members.membersAsUniform_asVarying,
      Members.membersAsUniform_idem, Members.membersEqual_refl]
  | voidType => simp [broadcastable] at hb
  | reference t2 => simp [broadcastable] at hb
  | array e2 n2 => simp [broadcastable] at hb



theorem zipLanesUB_eq_of_total (f : Int → Int → Option Int) (g : Int → Int → Int) :
    ∀ (l0 l1 : List Int), (∀ p ∈ List.zip l0 l1, f p.1 p.2 = some (g p.1 p.2)) →
    zipLanesUB f l0 l1 = some (List.zipWith g l0 l1)
  | [], l1, _ => by cases l1 <;> simp [zipLanesUB]
  | a :: as_, [], _ => by simp [zipLanesUB]
  | a :: as_, b :: bs, h => by
    have h1 := h (a, b) (by simp)
    have hrest := zipLanesUB_eq_of_total f g as_ bs (fun p hp => h p (by simp [hp]))
    simp [zipLanesUB, h1, hrest]

theorem zipLanesUB_none_of_ub (f : Int → Int → Option Int) :
    ∀ (l0 l1 : List Int), (∃ p ∈ List.zip l0 l1, f p.1 p.2 = none) →
    zipLanesUB f l0 l1 = none
  | [], l1, h => by cases l1 <;> simp at h
  | a :: as_, [], h => by simp at h
  | a :: as_, b :: bs, h => by
    rcases h with ⟨p, hp, hf⟩
    simp at hp
    rcases hp with rfl | hmem
    · simp [zipLanesUB, hf]
    · have hrec := zipLanesUB_none_of_ub f as_ bs ⟨p, hmem, hf⟩
      cases hfa : f a b <;> simp [zipLanesUB, hfa, hrec]

theorem lArgCostLoop_eq (mf : Ty → Ty → Int) :
    ∀ (cts pts : List Ty) (flags : List Bool),
      lArgCostLoop mf cts pts flags = (specArgCosts mf cts pts flags).map List.sum
  | [], pts, flags => by cases pts <;> simp [lArgCostLoop, specArgCosts]
  | ct :: cts, [], flags => by simp [lArgCostLoop, specArgCosts]
  | ct :: cts, pt :: pts, flags => by
    have ih := lArgCostLoop_eq mf cts pts flags.tail
    simp only [lArgCostLoop, specArgCosts, specArgCost, ih]
    by_cases hm : mf ct pt = -1
    · cases hf : flags.headD false <;> cases hq : pt.isPointerType <;>
        simp only [List.headD_eq_head?_getD] at hf <;>
        cases hc : specArgCosts mf cts pts flags.tail <;>
        simp [hm, hf, hq, hc]
    · cases hc : specArgCosts mf cts pts flags.tail <;> simp [hm, hc]

theorem tryResolveMatches_eq (mf : Ty → Ty → Int) (callTypes : List Ty) (flags : List Bool) :
    ∀ cands, tryResolveMatches mf callTypes flags cands
      = specTierMatches mf callTypes flags cands
  | [] => by simp [tryResolveMatches, specTierMatches]
  | cand :: rest => by
    have ih := tryResolveMatches_eq mf callTypes flags rest
    have htail : List.filterMap
        (fun c => (specCandidateCost mf callTypes flags c).map (fun k => (k, c))) rest
        = tryResolveMatches mf callTypes flags rest := by
      rw [ih]; rfl
    rw [tryResolveMatches, specTierMatches, List.filterMap_cons, htail]
    by_cases hgt : callTypes.length > cand.paramTypes.length
    · have hac : specCandidateCost mf callTypes flags cand = none := by
        rw [specCandidateCost, if_neg]
        intro hAr
        exact absurd hAr.1 (by omega)
      simp [hgt, hac]
    · rw [if_neg hgt]
      rw [lArgCostLoop_eq]
      cases hc : specArgCosts mf callTypes cand.paramTypes flags with
      | none =>
        have hac : specCandidateCost mf callTypes flags cand = none := by
          rw [specCandidateCost]
          split <;> simp [hc]
        simp [hac]
      | some costs =>
        by_cases he : callTypes.length = cand.paramTypes.length
        · have hac : specCandidateCost mf callTypes flags cand = some costs.sum := by
            rw [specCandidateCost, if_pos ⟨by omega, Or.inl he⟩, hc]
            rfl
          simp [he, hac]
        · by_cases hd : cand.paramHasDefault.getD callTypes.length false = true
          · have hac : specCandidateCost mf callTypes flags cand = some costs.sum := by
              rw [specCandidateCost, if_pos ⟨by omega, Or.inr hd⟩, hc]
              rfl
            have hcond : callTypes.length < cand.paramTypes.length ∧
                cand.paramHasDefault.getD callTypes.length false = true := ⟨by omega, hd⟩
            have hd2 : cand.paramHasDefault[callTypes.length]?.getD false = true := by
              simpa [List.getD_eq_getElem?_getD] using hd
            simp [he, hcond, hac, hd2]
          · have hac : specCandidateCost mf callTypes flags cand = none := by
              rw [specCandidateCost, if_neg]
              rintro ⟨hle, he2 | hd2⟩
              · exact he he2
              · exact hd hd2
            have hcond : ¬(callTypes.length < cand.paramTypes.length ∧
                cand.paramHasDefault.getD callTypes.length false = true) := by
              rintro ⟨_, hd2⟩
              exact hd hd2
            have hd2 : cand.paramHasDefault[callTypes.length]?.getD false = false := by
              rw [Bool.not_eq_true] at hd
              simpa [List.getD_eq_getElem?_getD] using hd
            simp [he, hcond, hac, hd2]

theorem lGetBestMatchScan_acc (mc : Int) :
    ∀ (l : List (Int × FuncSym)) (s : FuncSym),
      lGetBestMatchScan mc l (some s)
        = if (l.filter (fun q => q.1 == mc)).isEmpty then some s else none
  | [], s => by simp [lGetBestMatchScan]
  | p :: rest, s => by
    rw [List.filter_cons]
    by_cases hp : p.1 = mc
    · have hb : (p.1 == mc) = true := by simpa using hp
      rw [lGetBestMatchScan, hb]
      simp
    · have hb : (p.1 == mc) = false := by simpa using hp
      rw [lGetBestMatchScan, hb, lGetBestMatchScan_acc mc rest s]
      simp

theorem lGetBestMatchScan_none (mc : Int) :
    ∀ (l : List (Int × FuncSym)),
      lGetBestMatchScan mc l none
        = match l.filter (fun q => q.1 == mc) with
          | [p] => some p.2
          | _ => none
  | [] => by simp [lGetBestMatchScan]
  | p :: rest => by
    rw [List.filter_cons]
    by_cases hp : p.1 = mc
    · have hb : (p.1 == mc) = true := by simpa using hp
      rw [lGetBestMatchScan, hb, lGetBestMatchScan_acc mc rest p.2]
      cases hrf : rest.filter (fun q => q.1 == mc) <;> simp [hrf]
    · have hb : (p.1 == mc) = false := by simpa using hp
      rw [lGetBestMatchScan, hb, lGetBestMatchScan_none mc rest]
      simp

theorem lResolveWithTiers_eq_spec (callTypes : List Ty) (flags : List Bool)
    (cands : List FuncSym) (exact : Bool) :
    ∀ tiers, lResolveWithTiers callTypes flags cands exact tiers
      = specResolveLoop callTypes flags cands exact tiers
  | [] => rfl
  | m :: ms => by
    have ih := lResolveWithTiers_eq_spec callTypes flags cands exact ms
    rw [lResolveWithTiers, specResolveLoop]
    simp only [tryResolve, tryResolveMatches_eq]
    cases h : specTierMatches m callTypes flags cands with
    | nil => simpa using ih
    | cons p rest =>
      simp only [lGetBestMatch, lBestMatches, lGetBestMatchScan_none]
      cases htf : (p :: rest).filter
          (fun q => q.1 == rest.foldl (fun a b => min a b.1) p.1) with
      | nil => simp [htf]
      | cons t ts =>
        cases ts with
        | nil => simp [htf]
        | cons t2 ts2 => simp [htf]

/-- Claim C1: overload resolution tries the ranked match predicates in
order; within a tier it sums per-argument costs over the arity-compatible
candidates (a null-capable argument against a pointer formal costs 0),
binds the unique minimum-cost candidate, reports ambiguity and stops when
two or more candidates tie at the minimum, moves on when no candidate
qualifies, and reports a no-matching-overload failure listing all
candidates when every tier is exhausted.  Stated as a refinement: the
source resolver agrees with the spec-level resolver on every input. -/
theorem c1_theorem (name : String) (callTypes : List Ty)
    (argCouldBeNULL : Option (List Bool)) (cands : List FuncSym) :
    ResolveOverloads name callTypes argCouldBeNULL cands
      = specResolveOverloads name callTypes argCouldBeNULL cands := by
  rw [ResolveOverloads, specResolveOverloads]
  exact lResolveWithTiers_eq_spec callTypes (nullFlagList argCouldBeNULL) cands
    (lNameStartsWithTwoUnderscores name) _

theorem c1_witness :
    ResolveOverloads "f" [tyI32u] none [fFloat, fInt64]
      = specResolveOverloads "f" [tyI32u] none [fFloat, fInt64] :=
  c1_theorem "f" [tyI32u] none [fFloat, fInt64]

/-- Claim C3 (corrected): whenever the destination type is uniform and the
source type is varying — the source not being an array converting to a
pointer — the implicit conversion engine fails with the varying-to-uniform
error; in the reverse direction a uniform type converts implicitly to its
varying counterpart with a TypeCast inserted for atomic, enum, pointer,
short-vector and struct types, but not for array types (see
c3_counterexample). -/
theorem c3_theorem (fromT toT t : Ty) (e e2 : Option CExpr)
    (hu : toT.IsUniformType = true) (hv : fromT.IsVaryingType = true)
    (hnap : (fromT.isArrayType && toT.isPointerType) = false)
    (hb : broadcastable t = true) :
    lDoTypeConv fromT toT e = .error .varyingToUniform ∧
    lDoTypeConv t.GetAsUniformType t.GetAsVaryingType e2
      = .ok (e2.map (CExpr.typeCast t.GetAsVaryingType)) :=
  ⟨lDoTypeConv_varying_to_uniform fromT toT e hu hv hnap,
   lDoTypeConv_broadcast t hb e2⟩

theorem c3_counterexample :
    (Ty.array (Ty.atomic .int32 .uniform false) 4).IsUniformType = true ∧
    (Ty.array (Ty.atomic .int32 .varying false) 4).IsVaryingType = true ∧
    lDoTypeConv (Ty.array (Ty.atomic .int32 .uniform false) 4)
        (Ty.array (Ty.atomic .int32 .varying false) 4) (some (.base false))
      = .error .arrayIncompat :=
  ⟨rfl, rfl, rfl⟩

theorem c3_witness :
    ((Ty.atomic .int32 .uniform false).IsUniformType = true ∧
     (Ty.atomic .float .varying false).IsVaryingType = true ∧
     ((Ty.atomic .float .varying false).isArrayType
        && (Ty.atomic .int32 .uniform false).isPointerType) = false ∧
     broadcastable (Ty.atomic .int32 .uniform false) = true) ∧
    lDoTypeConv (Ty.atomic .float .varying false) (Ty.atomic .int32 .uniform false)
        (some (.base false)) = .error .varyingToUniform ∧
    lDoTypeConv (Ty.atomic .int32 .uniform false).GetAsUniformType
        (Ty.atomic .int32 .uniform false).GetAsVaryingType none
      = .ok (Option.map (CExpr.typeCast (Ty.atomic .int32 .uniform false).GetAsVaryingType)
          none) :=
  ⟨⟨rfl, rfl, rfl, rfl⟩,
   c3_theorem (Ty.atomic .float .varying false) (Ty.atomic .int32 .uniform false)
     (Ty.atomic .int32 .uniform false) (some (.base false)) none rfl rfl rfl rfl⟩

/-- Claim C6: subtracting two non-void pointers yields int32 when the
target is 32-bit or 32-bit addressing is forced and int64 otherwise; the
result is varying if either pointer operand is varying, else uniform. -/
theorem c6_theorem (b0 b1 : Ty) (v0 v1 : Variability) (c0 c1 : Bool)
    (is32Bit force32 : Bool) (_hb0 : b0.isVoid = false) (_hb1 : b1.isVoid = false) :
    BinaryExprGetTypePointer .Sub (.pointer b0 v0 c0) (.pointer b1 v1 c1) is32Bit force32
      = some (.atomic (if is32Bit || force32 then .int32 else .int64)
          (if v0 == .varying || v1 == .varying then .varying else .uniform) false) := by
  cases v0 <;> cases v1 <;> cases is32Bit <;> cases force32 <;>
    simp [BinaryExprGetTypePointer, Ty.isPointerType, Ty.IsVaryingType, Ty.GetAsVaryingType]

theorem c6_witness :
    (Ty.atomic .float .uniform false).isVoid = false ∧
    BinaryExprGetTypePointer .Sub (.pointer (.atomic .float .uniform false) .uniform false)
        (.pointer (.atomic .float .uniform false) .varying false) false true
      = some (.atomic .int32 .varying false) :=
  ⟨rfl, c6_theorem _ _ _ _ _ _ false true rfl rfl⟩

/-- Claim C8: the unary constant folder performs no folding on a constant
operand of base type int8, uint8, int16, uint16, int64 or uint64 and
returns the expression unchanged. -/
theorem c8_theorem (fsem dsem : FloatSem) (op : UnOp) (b : BasicType)
    (v : Variability) (c : Bool) (lanes : List Int)
    (hb : b = .int8 ∨ b = .uint8 ∨ b = .int16 ∨ b = .uint16 ∨ b = .int64 ∨ b = .uint64) :
    UnaryOptimize fsem dsem op (.constE (.atomic b v c) lanes)
      = some (.unaryE op (.constE (.atomic b v c) lanes)) := by
  rcases hb with rfl | rfl | rfl | rfl | rfl | rfl <;>
    simp [UnaryOptimize, lUnaryElidedBaseType, Ty.GetAsNonConstType, Ty.GetAsUniformType, Ty.Equal]

theorem c8_witness :
    ((BasicType.int16 = .int8 ∨ BasicType.int16 = .uint8 ∨ BasicType.int16 = .int16 ∨
      BasicType.int16 = .uint16 ∨ BasicType.int16 = .int64 ∨ BasicType.int16 = .uint64) ∧
     UnaryOptimize someFloatSem someFloatSem .Negate (.constE (.atomic .int16 .uniform false) [3])
       = some (.unaryE .Negate (.constE (.atomic .int16 .uniform false) [3]))) :=
  ⟨by simp, c8_theorem someFloatSem someFloatSem .Negate .int16 .uniform false [3] (by simp)⟩

theorem c4_counterexample :
    BinaryOptimize false false someFloatSem someFloatSem .LogicalAnd
        (.constE tyBoolu [0]) (.opaqueE 0 tyBoolu)
      = some (.binaryE .LogicalAnd (.constE tyBoolu [0]) (.opaqueE 0 tyBoolu), false) ∧
    BinaryOptimize false false someFloatSem someFloatSem .LogicalAnd
        (.constE tyBoolu [0]) (.opaqueE 0 tyBoolu)
      ≠ some (.constE tyBoolu [0], false) ∧
    BinaryOptimize false false someFloatSem someFloatSem .LogicalOr
        (.constE tyBoolu [1]) (.opaqueE 0 tyBoolu)
      = some (.binaryE .LogicalOr (.constE tyBoolu [1]) (.opaqueE 0 tyBoolu), false) :=
  ⟨rfl, by simp [show BinaryOptimize false false someFloatSem someFloatSem .LogicalAnd
      (.constE tyBoolu [0]) (.opaqueE 0 tyBoolu)
      = some (.binaryE .LogicalAnd (.constE tyBoolu [0]) (.opaqueE 0 tyBoolu), false) from rfl], rfl⟩

/-- Claim C4 (corrected): the constant folder folds a logical-and or
logical-or of two bool constants elementwise, but it performs no
short-circuit folding when only the first operand is constant: with a
non-constant second operand the expression is returned unchanged even when
the first operand alone determines the result (see c4_counterexample). -/
theorem c4_theorem :
    (∀ (fastMath rcpFound : Bool) (fsem dsem : FloatSem) (v : Variability) (c : Bool)
       (t1 : Ty) (l0 l1 : List Int),
      BinaryOptimize fastMath rcpFound fsem dsem .LogicalAnd
          (.constE (.atomic .bool v c) l0) (.constE t1 l1)
        = some (.constE (.atomic .bool v c)
            (boolsAsLanes (List.zipWith (fun a b => a && b) (lanesAsBool l0) (lanesAsBool l1))),
            false)) ∧
    (∀ (fastMath rcpFound : Bool) (fsem dsem : FloatSem) (v : Variability) (c : Bool)
       (t1 : Ty) (l0 l1 : List Int),
      BinaryOptimize fastMath rcpFound fsem dsem .LogicalOr
          (.constE (.atomic .bool v c) l0) (.constE t1 l1)
        = some (.constE (.atomic .bool v c)
            (boolsAsLanes (List.zipWith (fun a b => a || b) (lanesAsBool l0) (lanesAsBool l1))),
            false)) := by
  constructor <;>
  · intro fastMath rcpFound fsem dsem v c t1 l0 l1
    cases v <;>
      simp [BinaryOptimize, lBinaryConstFold, lConstFoldBoolBinOp, Ty.GetAsNonConstType,
        Ty.Equal, Ty.isEnumType, lIsFloatDivType]

theorem c4_witness :
    BinaryOptimize false false someFloatSem someFloatSem .LogicalAnd
        (.constE tyBoolu [0, 1]) (.constE tyBoolu [1, 1])
      = some (.constE tyBoolu
          (boolsAsLanes (List.zipWith (fun a b => a && b) (lanesAsBool [0, 1]) (lanesAsBool [1, 1]))),
          false) :=
  c4_theorem.1 false false someFloatSem someFloatSem .uniform false tyBoolu [0, 1] [1, 1]



/-- Claim C5: under fast math the optimizer rewrites x / c, with c a float
constant, into x * (1/c) with the reciprocal folded elementwise; x / y
with a non-constant float divisor becomes x * rcp(y) when an rcp function
is found in the symbol table, and otherwise the division is left unchanged
and the missing-rcp warning flag is raised. -/
theorem c5_theorem :
    (∀ (rcpFound : Bool) (fsem dsem : FloatSem) (v : Variability) (c : Bool)
       (tag : Nat) (t0 : Ty) (lanes : List Int),
      BinaryOptimize true rcpFound fsem dsem .Div (.opaqueE tag t0)
          (.constE (.atomic .float v c) lanes)
        = some (.binaryE .Mul (.opaqueE tag t0)
            (.constE (.atomic .float v c) (lanes.map fsem.frcp)), false)) ∧
    (∀ (fsem dsem : FloatSem) (v : Variability) (c : Bool) (tag0 tag1 : Nat) (t0 : Ty),
      BinaryOptimize true true fsem dsem .Div (.opaqueE tag0 t0)
          (.opaqueE tag1 (.atomic .float v c))
        = some (.binaryE .Mul (.opaqueE tag0 t0)
            (.rcpCallE (.opaqueE tag1 (.atomic .float v c))), false)) ∧
    (∀ (fsem dsem : FloatSem) (v : Variability) (c : Bool) (tag0 tag1 : Nat) (t0 : Ty),
      BinaryOptimize true false fsem dsem .Div (.opaqueE tag0 t0)
          (.opaqueE tag1 (.atomic .float v c))
        = some (.binaryE .Div (.opaqueE tag0 t0) (.opaqueE tag1 (.atomic .float v c)), true)) := by
  refine ⟨?_, ?_, ?_⟩ <;>
  · intros
    rename_i v c _ _ _
    cases v <;> cases c <;>
      simp [BinaryOptimize, lIsFloatDivType, lBinaryConstFold, FExpr.GetType, Ty.Equal]

theorem c5_witness :
    BinaryOptimize true false someFloatSem someFloatSem .Div (.opaqueE 0 tyFltu)
        (.constE tyFltu [5])
      = some (.binaryE .Mul (.opaqueE 0 tyFltu) (.constE tyFltu ([5].map someFloatSem.frcp)),
          false) ∧
    BinaryOptimize true true someFloatSem someFloatSem .Div (.opaqueE 0 tyFltu)
        (.opaqueE 1 tyFltu)
      = some (.binaryE .Mul (.opaqueE 0 tyFltu) (.rcpCallE (.opaqueE 1 tyFltu)), false) ∧
    BinaryOptimize true false someFloatSem someFloatSem .Div (.opaqueE 0 tyFltu)
        (.opaqueE 1 tyFltu)
      = some (.binaryE .Div (.opaqueE 0 tyFltu) (.opaqueE 1 tyFltu), true) :=
  ⟨c5_theorem.1 false someFloatSem someFloatSem .uniform false 0 tyFltu [5],
   c5_theorem.2.1 someFloatSem someFloatSem .uniform false 0 1 tyFltu,
   c5_theorem.2.2 someFloatSem someFloatSem .uniform false 0 1 tyFltu⟩

/-- Claim C10: when both operands of an integer-typed (int32, uint32 or
enum) Div or Mod are constants, the folder computes each lane unguarded;
the fold is defined exactly under the precondition that every divisor lane
is nonzero (and, for signed division, the pair INT32_MIN and -1 is
excluded); with a zero divisor lane the fold has no defined result,
modelled as none. -/
theorem c10_theorem :
    (∀ (fm rf : Bool) (fsem dsem : FloatSem) (v : Variability) (c0 c1 : Bool) (l0 l1 : List Int),
      (∀ p ∈ List.zip l0 l1, p.2 ≠ 0 ∧ ¬(p.1 = -(2 ^ 31) ∧ p.2 = -1)) →
      BinaryOptimize fm rf fsem dsem .Div (.constE (.atomic .int32 v c0) l0)
          (.constE (.atomic .int32 v c1) l1)
        = some (.constE (.atomic .int32 v c0) (List.zipWith (fun a b => a.tdiv b) l0 l1), false)) ∧
    (∀ (fm rf : Bool) (fsem dsem : FloatSem) (v : Variability) (c0 c1 : Bool) (l0 l1 : List Int),
      (∀ p ∈ List.zip l0 l1, p.2 ≠ 0 ∧ ¬(p.1 = -(2 ^ 31) ∧ p.2 = -1)) →
      BinaryOptimize fm rf fsem dsem .Mod (.constE (.atomic .int32 v c0) l0)
          (.constE (.atomic .int32 v c1) l1)
        = some (.constE (.atomic .int32 v c0) (List.zipWith (fun a b => a.tmod b) l0 l1), false)) ∧
    (∀ (fm rf : Bool) (fsem dsem : FloatSem) (v : Variability) (c0 c1 : Bool)
       (n0 n1 : String) (l0 l1 : List Int),
      (∀ p ∈ List.zip l0 l1, p.2 ≠ 0) →
      BinaryOptimize fm rf fsem dsem .Div (.constE (.enumT n0 v c0) l0)
          (.constE (.enumT n1 v c1) l1)
        = some (.constE (.enumT n0 v c0) (List.zipWith (fun a b => a.tdiv b) l0 l1), false)) ∧
    (∀ (fm rf : Bool) (fsem dsem : FloatSem) (v : Variability) (c0 c1 : Bool) (l0 l1 : List Int),
      (∀ p ∈ List.zip l0 l1, p.2 ≠ 0) →
      BinaryOptimize fm rf fsem dsem .Mod (.constE (.atomic .uint32 v c0) l0)
          (.constE (.atomic .uint32 v c1) l1)
        = some (.constE (.atomic .uint32 v c0) (List.zipWith (fun a b => a.tmod b) l0 l1), false)) ∧
    (∀ (fm rf : Bool) (fsem dsem : FloatSem) (v : Variability) (c0 c1 : Bool) (l0 l1 : List Int),
      (∃ p ∈ List.zip l0 l1, p.2 = 0) →
      BinaryOptimize fm rf fsem dsem .Div (.constE (.atomic .int32 v c0) l0)
          (.constE (.atomic .int32 v c1) l1)
        = none) := by
  refine ⟨?_, ?_, ?_, ?_, ?_⟩
  · intro fm rf fsem dsem v c0 c1 l0 l1 h
    have hz : zipLanesUB i32div l0 l1 = some (List.zipWith (fun a b => a.tdiv b) l0 l1) :=
      zipLanesUB_eq_of_total i32div (fun a b => a.tdiv b) l0 l1 (fun p hp => by
        have hh := h p hp
        have hcond : ¬(p.2 = 0 ∨ (p.1 = -(2 ^ 31) ∧ p.2 = -1)) := by
          rintro (h0 | hpair)
          · exact hh.1 h0
          · exact hh.2 hpair
        simp only [i32div]
        rw [if_neg hcond])
    cases v <;>
      simp [BinaryOptimize, lIsFloatDivType, lBinaryConstFold, lConstFoldBinArithOp,
        Ty.GetAsNonConstType, Ty.Equal, Ty.isEnumType, i32sem, hz, FExpr.GetType]
  · intro fm rf fsem dsem v c0 c1 l0 l1 h
    have hz : zipLanesUB i32mod l0 l1 = some (List.zipWith (fun a b => a.tmod b) l0 l1) :=
      zipLanesUB_eq_of_total i32mod (fun a b => a.tmod b) l0 l1 (fun p hp => by
        have hh := h p hp
        have hcond : ¬(p.2 = 0 ∨ (p.1 = -(2 ^ 31) ∧ p.2 = -1)) := by
          rintro (h0 | hpair)
          · exact hh.1 h0
          · exact hh.2 hpair
        simp only [i32mod]
        rw [if_neg hcond])
    cases v <;>
      simp [BinaryOptimize, lIsFloatDivType, lBinaryConstFold, lConstFoldBinArithOp,
        lConstFoldBinIntOp, Ty.GetAsNonConstType, Ty.Equal, Ty.isEnumType, i32sem, hz,
        FExpr.GetType]
  · intro fm rf fsem dsem v c0 c1 n0 n1 l0 l1 h
    have hz : zipLanesUB u32div l0 l1 = some (List.zipWith (fun a b => a.tdiv b) l0 l1) :=
      zipLanesUB_eq_of_total u32div (fun a b => a.tdiv b) l0 l1 (fun p hp => by
        have := h p hp
        simp [u32div, this])
    cases v <;>
      simp [BinaryOptimize, lIsFloatDivType, lBinaryConstFold, lConstFoldBinArithOp,
        Ty.GetAsNonConstType, Ty.Equal, Ty.isEnumType, u32sem, hz, FExpr.GetType]
  · intro fm rf fsem dsem v c0 c1 l0 l1 h
    have hz : zipLanesUB u32mod l0 l1 = some (List.zipWith (fun a b => a.tmod b) l0 l1) :=
      zipLanesUB_eq_of_total u32mod (fun a b => a.tmod b) l0 l1 (fun p hp => by
        have := h p hp
        simp [u32mod, this])
    cases v <;>
      simp [BinaryOptimize, lIsFloatDivType, lBinaryConstFold, lConstFoldBinArithOp,
        lConstFoldBinIntOp, Ty.GetAsNonConstType, Ty.Equal, Ty.isEnumType, u32sem, hz,
        FExpr.GetType]
  · intro fm rf fsem dsem v c0 c1 l0 l1 h
    have hz : zipLanesUB i32div l0 l1 = none :=
      zipLanesUB_none_of_ub i32div l0 l1 (by
        rcases h with ⟨p, hp, h0⟩
        exact ⟨p, hp, by simp [i32div, h0]⟩)
    cases v <;>
      simp [BinaryOptimize, lIsFloatDivType, lBinaryConstFold, lConstFoldBinArithOp,
        Ty.GetAsNonConstType, Ty.Equal, Ty.isEnumType, i32sem, hz, FExpr.GetType]

theorem c10_witness :
    ((∀ p ∈ List.zip [7, -9] [2, 3], p.2 ≠ (0 : Int) ∧ ¬(p.1 = -(2 ^ 31) ∧ p.2 = -1)) ∧
     BinaryOptimize false false someFloatSem someFloatSem .Div
         (.constE (.atomic .int32 .uniform false) [7, -9])
         (.constE (.atomic .int32 .uniform false) [2, 3])
       = some (.constE (.atomic .int32 .uniform false)
           (List.zipWith (fun a b => a.tdiv b) [7, -9] [2, 3]), false)) ∧
    ((∃ p ∈ List.zip [7] [0], p.2 = (0 : Int)) ∧
     BinaryOptimize false false someFloatSem someFloatSem .Div
         (.constE (.atomic .int32 .uniform false) [7])
         (.constE (.atomic .int32 .uniform false) [0])
       = none) :=
  ⟨⟨by decide, c10_theorem.1 false false someFloatSem someFloatSem .uniform false false
      [7, -9] [2, 3] (by decide)⟩,
   ⟨by decide, c10_theorem.2.2.2.2 false false someFloatSem someFloatSem .uniform false false
      [7] [0] (by decide)⟩⟩



theorem c7_counterexample :
    (Ty.atomic .int32 .uniform true).IsConstType = true ∧
    AssignExprTypeCheck .Assign (.atomic .int32 .uniform true) structS (.base false) true false
      = .error (.convFailed .nonAtomicFrom) ∧
    AssignExprTypeCheck .Assign (.atomic .int32 .uniform true) structS (.base false) true false
      ≠ .error (.assignToConst (.atomic .int32 .uniform true)) :=
  ⟨rfl, rfl, by
    rw [show AssignExprTypeCheck .Assign (.atomic .int32 .uniform true) structS (.base false)
        true false = .error (.convFailed .nonAtomicFrom) from rfl]
    simp⟩

/-- Claim C7 (corrected): assignment type checking reports the
cannot-assign-to-const error for a const left-hand side, and for a struct
left-hand side with a transitively const member it reports the error
naming the offending member and its type — but only after the right-hand
side converts successfully to the left type, with a non-array left type,
and, for a pointer left type, only under plain assignment; a failing
conversion preempts the const error (see c7_counterexample). -/
theorem c7_theorem :
    (∀ (op : AssignOp) (lhsT rhsT : Ty) (rv : CExpr) (is32 : Bool),
      lhsT.isReferenceType = false →
      lhsT.IsConstType = true →
      lhsT.isArrayType = false →
      (lhsT.isPointerType = true → op = .Assign) →
      (lDoTypeConv rhsT lhsT (some rv)).isOk = true →
      AssignExprTypeCheck op lhsT rhsT rv true is32 = .error (.assignToConst lhsT)) ∧
    (∀ (op : AssignOp) (sn : String) (m : Members) (v : Variability) (rhsT : Ty)
       (rv : CExpr) (is32 : Bool) (smem mmem : String) (mty : Ty) (nested : Bool),
      (lDoTypeConv rhsT (.structT sn m v false) (some rv)).isOk = true →
      lCheckForConstStructMember true sn m = some (.constStructMember smem mmem mty nested) →
      AssignExprTypeCheck op (.structT sn m v false) rhsT rv true is32
        = .error (.constStructMember smem mmem mty nested)) := by
  constructor
  · intro op lhsT rhsT rv is32 href hconst harr hptr hconv
    rcases hok : lDoTypeConv rhsT lhsT (some rv) with err | e
    · rw [hok] at hconv
      simp [Except.isOk, Except.toBool] at hconv
    · by_cases hp : lhsT.isPointerType = true
      · have hop := hptr hp
        subst hop
        simp [AssignExprTypeCheck, href, hp, hok, hconst]
      · simp only [Bool.not_eq_true] at hp
        simp [AssignExprTypeCheck, href, hp, harr, hok, hconst]
  · intro op sn m v rhsT rv is32 smem mmem mty nested hconv hcheck
    rcases hok : lDoTypeConv rhsT (.structT sn m v false) (some rv) with err | e
    · rw [hok] at hconv
      simp [Except.isOk, Except.toBool] at hconv
    · simp [AssignExprTypeCheck, Ty.isReferenceType, Ty.isPointerType, Ty.isArrayType, hok,
        Ty.IsConstType, hcheck]

theorem c7_witness :
    ((Ty.atomic .int32 .uniform true).isReferenceType = false ∧
     (Ty.atomic .int32 .uniform true).IsConstType = true ∧
     (Ty.atomic .int32 .uniform true).isArrayType = false ∧
     (lDoTypeConv (.atomic .int32 .uniform false) (.atomic .int32 .uniform true)
        (some (.base false))).isOk = true ∧
     AssignExprTypeCheck .Assign (.atomic .int32 .uniform true) (.atomic .int32 .uniform false)
        (.base false) true false
       = .error (.assignToConst (.atomic .int32 .uniform true))) ∧
    ((lDoTypeConv structS structS (some (.base false))).isOk = true ∧
     lCheckForConstStructMember true "S" (.cons "k" (.atomic .int32 .uniform true) .nil)
       = some (.constStructMember "S" "k" (.atomic .int32 .uniform true) false) ∧
     AssignExprTypeCheck .Assign structS structS (.base false) true false
       = .error (.constStructMember "S" "k" (.atomic .int32 .uniform true) false)) :=
  ⟨⟨rfl, rfl, rfl, rfl,
    c7_theorem.1 .Assign (.atomic .int32 .uniform true) (.atomic .int32 .uniform false)
      (.base false) false rfl rfl rfl (fun h => by simp [Ty.isPointerType] at h) rfl⟩,
   ⟨rfl, rfl,
    c7_theorem.2 .Assign "S" (.cons "k" (.atomic .int32 .uniform true) .nil) .uniform structS
      (.base false) false "S" "k" (.atomic .int32 .uniform true) false rfl rfl⟩⟩

theorem c2_counterexample :
    ResolveOverloads "f" [tyI16u] none [fFloat, fInt64] = .ambiguous [fFloat, fInt64] ∧
    ResolveOverloads "f" [tyI16u] none [fFloat, fInt64] ≠ .resolved fInt64 :=
  ⟨rfl, by
    rw [show ResolveOverloads "f" [tyI16u] none [fFloat, fInt64]
        = .ambiguous [fFloat, fInt64] from rfl]
    simp⟩

/-- Claim C2 (corrected): in the widen-without-loss overload tier the
widening table does refuse lossy conversions (bool, int8 and uint8 into
int16; double into float), but it accepts int16 into float at cost 1; with
candidates f(float) and f(int64) the call f((int16)3) therefore ties at
cost 1 in that tier and resolves to an ambiguity, not uniquely to f(int64)
(see c2_counterexample). -/
theorem c2_theorem :
    lMatchWithTypeWidening tyI16u tyFltu = 1 ∧
    lMatchWithTypeWidening tyI16u tyI64u = 1 ∧
    lMatchWithTypeWidening tyI16u tyBoolu = -1 ∧
    lMatchWithTypeWidening tyI16u (.atomic .int8 .uniform false) = -1 ∧
    lMatchWithTypeWidening tyI16u (.atomic .uint8 .uniform false) = -1 ∧
    lMatchWithTypeWidening (.atomic .double .uniform false) tyFltu = -1 ∧
    ResolveOverloads "f" [tyI16u] none [fFloat, fInt64] = .ambiguous [fFloat, fInt64] :=
  ⟨rfl, rfl, rfl, rfl, rfl, rfl, rfl⟩

theorem c9_counterexample :
    ResolveOverloads "__g" [tyI32u] none [gExact, gRef] = .ambiguous [gExact, gRef] ∧
    ResolveOverloads "__g" [tyI32u] none [gExact, gRef] ≠ .noMatching true [gExact, gRef] :=
  ⟨rfl, by
    rw [show ResolveOverloads "__g" [tyI32u] none [gExact, gRef]
        = .ambiguous [gExact, gRef] from rfl]
    simp⟩

/-- Claim C9 (corrected): for a function name whose first two characters
are two underscores, overload resolution runs only the exact-match tier:
no match gives the exact-matches-only failure listing the candidates and a
unique match resolves, but — diverging from the claim — two exact matches
tying at the minimum cost give an ambiguity error rather than that failure
(see c9_counterexample); the later tiers are never tried. -/
theorem c9_theorem (name : String) (callTypes : List Ty) (argCouldBeNULL : Option (List Bool))
    (cands : List FuncSym) (h : lNameStartsWithTwoUnderscores name = true) :
    ResolveOverloads name callTypes argCouldBeNULL cands =
      match tryResolve lExactMatch callTypes (nullFlagList argCouldBeNULL) cands with
      | .noMatch => .noMatching true cands
      | .found s => .resolved s
      | .ambiguous best => .ambiguous best := by
  rw [ResolveOverloads]
  simp only [h, if_true]
  cases htr : tryResolve lExactMatch callTypes (nullFlagList argCouldBeNULL) cands <;>
    simp [lResolveWithTiers, htr]

theorem c9_witness :
    lNameStartsWithTwoUnderscores "__g" = true ∧
    ResolveOverloads "__g" [tyFltu] none [gExact, gRef] =
      match tryResolve lExactMatch [tyFltu] (nullFlagList none) [gExact, gRef] with
      | .noMatch => .noMatching true [gExact, gRef]
      | .found s => .resolved s
      | .ambiguous best => .ambiguous best :=
  ⟨rfl, c9_theorem "__g" [tyFltu] none [gExact, gRef] rfl⟩

end Ispc
